import Mathlib

/-!
# Per-user task list backend: shallow embedding

The Go package `backend` (files `packages/handlers.go`, `packages/auth.go`) is a
thin HTTP layer over a PostgreSQL store.  The embedding below models

* the two tables as lists of rows and the `tasks.id` sequence as a counter,
* every SQL statement of `handlers.go` as a function on that store,
* `OpenConnection`, `GetEmail` and the five handlers as state-passing
  functions returning what was written to the `http.ResponseWriter`, the
  store afterwards, the statements that were executed, and how the handler
  stopped,
* what the `net/http` server sends to the client after the handler stopped
  (`Outcome.delivered`): nothing when the handler panicked,
* the audience / issuer checks of the token-validation callback in `auth.go`.

Library calls (`strconv.Atoi`, `encoding/json`, `database/sql`, `net/http`)
are modelled by their documented behaviour.  Failures of the network or of
the database engine while a statement runs are outside the model: a
statement that is reached is executed by the store.
-/

namespace Backend

deriving instance DecidableEq for Except

/-! ## Data model -/

/-- Item is the `Item` struct of `handlers.go`: a task without its `user_uuid`. -/
structure Item where
  TaskNum : Int
  Task : String
  Status : Bool
deriving DecidableEq, Repr

/-- Modelled from the spec: a row of `users(user_id, email)`; the schema is
assumed pre-existing and is not part of the sources. -/
structure UserRow where
  user_id : String
  email : String
deriving DecidableEq, Repr

/-- Modelled from the spec: a row of `tasks(id, task, status, user_uuid)`; the
schema is assumed pre-existing and is not part of the sources. -/
structure TaskRow where
  id : Int
  task : String
  status : Bool
  user_uuid : String
deriving DecidableEq, Repr

/-- Modelled from the spec: the relational store.  `idSeq` is the last value
handed out by the sequence behind `tasks.id` ("assigned by the store, unique,
monotonic"); the schema itself is not part of the sources. -/
structure Store where
  users : List UserRow
  tasks : List TaskRow
  idSeq : Int
deriving DecidableEq, Repr

/-- Modelled from the spec: the constraints of the data model that the absent
schema places on a store state: user identifiers are unique, task identifiers
are unique, and every task identifier was handed out by the sequence. -/
def Store.WF (s : Store) : Prop :=
  (s.users.map UserRow.user_id).Nodup ∧
  (s.tasks.map TaskRow.id).Nodup ∧
  ∀ t ∈ s.tasks, t.id ≤ s.idSeq

instance (s : Store) : Decidable s.WF := by
  unfold Store.WF; infer_instance

/-- The empty store before the first request. -/
def Store.empty : Store := ⟨[], [], 0⟩

/-- The row a task is returned as by `RETURNING id, task, status` and by the
list query. -/
def TaskRow.toItem (t : TaskRow) : Item := ⟨t.id, t.task, t.status⟩

/-- The rows of `tasks` owned by `userId`, in store order. -/
def Store.ownedBy (s : Store) (userId : String) : List TaskRow :=
  s.tasks.filter (fun t => t.user_uuid = userId)

/-! ## Errors and the response writer -/

/-- The two failures of `strconv` number parsing. -/
inductive NumErrKind where
  | ErrSyntax
  | ErrRange
deriving DecidableEq, Repr

/-- The `error` values whose text the handlers send with `http.Error`. -/
inductive Err where
  /-- the `*strconv.NumError` returned by `strconv.Atoi` on the given input -/
  | atoi (input : String) (kind : NumErrKind)
  /-- failure of `json.NewDecoder(r.Body).Decode` -/
  | decode (msg : String)
  /-- the error `sql.ErrNoRows`: `Scan` on a `QueryRow` that produced no row -/
  | noRows
deriving DecidableEq, Repr

/-- How a handler stops when it does not return normally. -/
inductive Abort where
  /-- the call `log.Fatal`: the process exits -/
  | fatal (msg : String)
  /-- the call `panic(err)` with an error value -/
  | panicErr (e : Err)
  /-- the call `panic(err)` after `sql.Open` or `db.Ping` failed -/
  | panicConnect
  /-- run-time panic of the type assertion `token[key].(string)` -/
  | panicAssertion
deriving DecidableEq, Repr

/-- A scalar JSON value of an encoded `Item`. -/
inductive Scalar where
  | int (n : Int)
  | str (s : String)
  | bool (b : Bool)
deriving DecidableEq, Repr

/-- The JSON documents the handlers can emit. -/
inductive Json where
  | null
  | object (fields : List (String × Scalar))
  | array (elems : List (List (String × Scalar)))
deriving DecidableEq, Repr

/-- One write to the response body. -/
inductive Payload where
  /-- a JSON document -/
  | json (j : Json)
  /-- the raw `err.Error()` text written by `http.Error` -/
  | errorText (e : Err)
deriving DecidableEq, Repr

/-- The observable state of an `http.ResponseWriter`: `status = none` until
the header has been written. -/
structure ResponseWriter where
  contentType : String
  status : Option Nat
  body : List Payload
deriving DecidableEq, Repr

/-- A fresh writer. -/
def ResponseWriter.new : ResponseWriter := ⟨"", none, []⟩

/-- The call `w.Header().Set("Content-Type", v)`; it has no effect once the
header has been written. -/
def ResponseWriter.setContentType (w : ResponseWriter) (v : String) : ResponseWriter :=
  match w.status with
  | none => { w with contentType := v }
  | some _ => w

/-- The call `w.WriteHeader(code)`; only the first call sets the status. -/
def ResponseWriter.WriteHeader (w : ResponseWriter) (code : Nat) : ResponseWriter :=
  match w.status with
  | none => { w with status := some code }
  | some _ => w

/-- The call `w.Write(p)`; it writes the header with status 200 first when no
header has been written yet. -/
def ResponseWriter.Write (w : ResponseWriter) (p : Payload) : ResponseWriter :=
  let w1 := w.WriteHeader 200
  { w1 with body := w1.body ++ [p] }

/-- The call `http.Error(w, err.Error(), code)`: plain-text content type,
the status, and the error text as body. -/
def httpError (w : ResponseWriter) (e : Err) (code : Nat) : ResponseWriter :=
  ((w.setContentType "text/plain; charset=utf-8").WriteHeader code).Write (.errorText e)

/-- The constant `http.StatusOK`. -/
def StatusOK : Nat := 200

/-- The constant `http.StatusBadRequest`. -/
def StatusBadRequest : Nat := 400

/-- The constant `http.StatusNotFound`. -/
def StatusNotFound : Nat := 404

/-! ## JSON encoding of items -/

/-- The fields of an encoded `Item`, with the names of its struct tags. -/
def Item.fields (it : Item) : List (String × Scalar) :=
  [("id", .int it.TaskNum), ("task", .str it.Task), ("status", .bool it.Status)]

/-- The call `json.NewEncoder(w).Encode(item)`. -/
def encodeItem (it : Item) : Json := .object it.fields

/-- A Go slice of items: `none` is the nil slice. -/
abbrev ItemSlice := Option (List Item)

/-- The call `make([]Item, 0)`: an empty, non-nil slice. -/
def makeItems : ItemSlice := some []

/-- The call `append(items, item)`. -/
def appendItem (items : ItemSlice) (item : Item) : ItemSlice :=
  some (items.getD [] ++ [item])

/-- The call `json.MarshalIndent(items, "", "\t")`: a nil slice encodes as
`null`, any other slice as an array. -/
def MarshalIndent : ItemSlice → Json
  | none => .null
  | some xs => .array (xs.map Item.fields)

/-! ## strconv.Atoi -/

/-- The value of a decimal digit byte. -/
def digitVal (c : Char) : Option Nat :=
  if '0' ≤ c ∧ c ≤ '9' then some (c.toNat - '0'.toNat) else none

/-- The digit loop of `strconv.ParseUint(s, 10, 64)`: a byte that is not a
decimal digit is a syntax error, an overflow of 64 bits a range error. -/
def parseUintLoop : List Char → Nat → Except NumErrKind Nat
  | [], n => .ok n
  | c :: cs, n =>
    match digitVal c with
    | none => .error .ErrSyntax
    | some d =>
      if n ≥ (2 ^ 64 - 1) / 10 + 1 then .error .ErrRange
      else if n * 10 + d > 2 ^ 64 - 1 then .error .ErrRange
      else parseUintLoop cs (n * 10 + d)

/-- The call `strconv.Atoi(s)` on a platform with 64-bit `int`, following
`strconv.ParseInt(s, 10, 0)` (the fast path of `Atoi` computes the same
result on the short inputs it handles). -/
def Atoi (s : String) : Except Err Int :=
  match s.toList with
  | [] => .error (.atoi s .ErrSyntax)
  | c :: cs =>
    let neg : Bool := c = '-'
    let digits := if c = '+' ∨ c = '-' then cs else c :: cs
    match digits with
    | [] => .error (.atoi s .ErrSyntax)
    | d :: ds =>
      match parseUintLoop (d :: ds) 0 with
      | .error k => .error (.atoi s k)
      | .ok un =>
        if !neg && un ≥ 2 ^ 63 then .error (.atoi s .ErrRange)
        else if neg && un > 2 ^ 63 then .error (.atoi s .ErrRange)
        else .ok (if neg then -(un : Int) else (un : Int))

/-- The number a sequence of decimal digits denotes, continuing from `n`. -/
def decimalFrom (n : Nat) (ds : List Char) : Nat :=
  ds.foldl (fun acc c => acc * 10 + (c.toNat - '0'.toNat)) n

/-- The value of one or more decimal digits; `none` for anything else. -/
def decimalDigits (ds : List Char) : Option Nat :=
  if ds ≠ [] ∧ ds.all Char.isDigit = true then some (decimalFrom 0 ds) else none

/-- A base-10 integer as the spec words it: an optional sign followed by
one or more decimal digits, with the integer it denotes. -/
def base10Integer (s : List Char) : Option Int :=
  match s with
  | [] => none
  | c :: cs =>
    if c = '-' then (decimalDigits cs).map (fun (v : Nat) => -(v : Int))
    else if c = '+' then (decimalDigits cs).map (fun (v : Nat) => (v : Int))
    else (decimalDigits (c :: cs)).map (fun (v : Nat) => (v : Int))

/-! ## SQL statements of `handlers.go` -/

/-- The statement `addEmail`:
`INSERT INTO users (email) VALUES ($1) ON CONFLICT (email) DO NOTHING;`.
The value of `user_id` of an inserted row is the column default of the
store, passed as `newUserId`. -/
def addEmail (s : Store) (newUserId email : String) : Store :=
  if s.users.any (fun u => u.email = email) then s
  else { s with users := s.users ++ [⟨newUserId, email⟩] }

/-- The statement `getUser`: `SELECT user_id FROM users WHERE email = $1;`,
all result rows in store order. -/
def getUser (s : Store) (email : String) : List String :=
  (s.users.filter (fun u => u.email = email)).map UserRow.user_id

/-- The method `QueryRow(...).Scan`: the first row of the result, or
`sql.ErrNoRows` when there is none. -/
def scanRow {α : Type} (rows : List α) : Except Err α :=
  match rows with
  | [] => .error .noRows
  | r :: _ => .ok r

/-- The list query of `GetList` and `DeleteTask`:
`SELECT id, task, status FROM tasks JOIN users ON tasks.user_uuid = users.user_id WHERE user_id = $1`,
one result row per pair of a task and a user row that satisfy the join
condition and the filter, tasks in store order. -/
def listQuery (s : Store) (userId : String) : List (Int × String × Bool) :=
  s.tasks.flatMap (fun t =>
    (s.users.filter (fun u => t.user_uuid = u.user_id ∧ u.user_id = userId)).map
      (fun _ => (t.id, t.task, t.status)))

/-- The loop `for rows.Next()` of `GetList` and `DeleteTask`: starting from
`make([]Item, 0)`, every row is scanned into an `Item` and appended. -/
def scanItems (rows : List (Int × String × Bool)) : ItemSlice :=
  rows.foldl (fun items r => appendItem items ⟨r.1, r.2.1, r.2.2⟩) makeItems

/-- The statement of `AddTask`:
`INSERT INTO tasks (task, status, user_uuid) VALUES ($1, $2, $3) RETURNING id, task, status;`.
The store assigns the next value of the sequence as `id`. -/
def AddTask.sqlStatement (s : Store) (task : String) (status : Bool) (userId : String) :
    Store × List Item :=
  let row : TaskRow := ⟨s.idSeq + 1, task, status, userId⟩
  ({ s with tasks := s.tasks ++ [row], idSeq := s.idSeq + 1 }, [row.toItem])

/-- The statement of `DeleteTask`:
`DELETE FROM tasks WHERE id = $1 AND user_uuid = $2;`, with the number of
rows affected. -/
def DeleteTask.sqlStatement (s : Store) (number : Int) (userId : String) : Store × Nat :=
  ({ s with tasks := s.tasks.filter (fun t => ¬ (t.id = number ∧ t.user_uuid = userId)) },
   (s.tasks.filter (fun t => t.id = number ∧ t.user_uuid = userId)).length)

/-- The statement of `EditTask`:
`UPDATE tasks SET task = $2 WHERE id = $1 AND user_uuid = $3 RETURNING id, task, status;`. -/
def EditTask.sqlStatement (s : Store) (number : Int) (task : String) (userId : String) :
    Store × List Item :=
  ({ s with tasks := s.tasks.map (fun t =>
      if t.id = number ∧ t.user_uuid = userId then { t with task := task } else t) },
   (s.tasks.filter (fun t => t.id = number ∧ t.user_uuid = userId)).map
      (fun t => ({ t with task := task } : TaskRow).toItem))

/-- The first statement of `DoneTask`:
`SELECT status FROM tasks WHERE id = $1 AND user_uuid = $2;`. -/
def DoneTask.sqlStatement1 (s : Store) (number : Int) (userId : String) : List Bool :=
  (s.tasks.filter (fun t => t.id = number ∧ t.user_uuid = userId)).map TaskRow.status

/-- The second statement of `DoneTask`:
`UPDATE tasks SET status = $2 WHERE id = $1 AND user_uuid = $3 RETURNING id, task, status;`. -/
def DoneTask.sqlStatement2 (s : Store) (number : Int) (status : Bool) (userId : String) :
    Store × List Item :=
  ({ s with tasks := s.tasks.map (fun t =>
      if t.id = number ∧ t.user_uuid = userId then { t with status := status } else t) },
   (s.tasks.filter (fun t => t.id = number ∧ t.user_uuid = userId)).map
      (fun t => ({ t with status := status } : TaskRow).toItem))

/-- The statements a handler can execute, and the opening of the connection. -/
inductive Event where
  | connect
  | addEmail
  | getUser
  | listQuery
  | insertTask
  | deleteTask
  | updateTask
  | selectStatus
  | updateStatus
deriving DecidableEq, Repr

/-! ## Configuration, token claims and requests -/

/-- An element of a JSON array held as `[]interface{}` in the token claims. -/
inductive AudElem where
  | str (s : String)
  | num (n : Int)
  | bool (b : Bool)
  | null
  | nested
deriving DecidableEq, Repr

/-- The dynamic type and value of an entry of `jwt.MapClaims`. -/
inductive ClaimVal where
  | str (s : String)
  | num (n : Int)
  | bool (b : Bool)
  | null
  | list (vs : List AudElem)
  | object
deriving DecidableEq, Repr

/-- The type `jwt.MapClaims`, as an association list. -/
abbrev MapClaims := List (String × ClaimVal)

/-- What a request finds outside the store: whether `godotenv.Load` succeeds,
the process environment, whether `sql.Open` and `db.Ping` succeed, the
package variable `GetToken` as left by the validation callback, and the
value the store would give `user_id` in a newly inserted `users` row. -/
structure Ctx where
  dotenv : Bool
  env : List (String × String)
  dbUp : Bool
  GetToken : MapClaims
  newUserId : String
deriving DecidableEq, Repr

/-- The parts of an `*http.Request` the handlers read: the route variable
`mux.Vars(r)["id"]` and the result of `json.NewDecoder(r.Body).Decode(&newTask)`
(the decoded `Item`, or the text of the decoding error). -/
structure Request where
  id : String
  body : Except String Item
deriving DecidableEq

/-- The function `GetEmail`: the claim named by `NAMESPACE_DOMAIN`, asserted
to be a string. -/
def GetEmail (ctx : Ctx) : Except Abort String :=
  if ctx.dotenv = false then .error (.fatal "Error loading .env file")
  else
    match ctx.env.lookup "NAMESPACE_DOMAIN" with
    | none => .error (.fatal "Error loading env variables (namespace domain)")
    | some key =>
      let token := ctx.GetToken
      match token.lookup key with
      | some (.str email) => .ok email
      | _ => .error .panicAssertion

/-- The result of `OpenConnection`: the store afterwards, the events so far,
and the resolved `userId` or the way the call stopped. -/
structure Opened where
  store : Store
  log : List Event
  result : Except Abort String
deriving DecidableEq

/-- The function `OpenConnection`: load the configuration, connect, insert
the email of the token into `users` unless present, and select its
`user_id`. -/
def OpenConnection (ctx : Ctx) (s : Store) : Opened :=
  if ctx.dotenv = false then ⟨s, [], .error (.fatal "Error loading .env file")⟩
  else
    match ctx.env.lookup "USER", ctx.env.lookup "PASSWORD", ctx.env.lookup "DB_NAME" with
    | some _, some _, some _ =>
      if ctx.dbUp = false then ⟨s, [.connect], .error .panicConnect⟩
      else
        match GetEmail ctx with
        | .error a => ⟨s, [.connect], .error a⟩
        | .ok email =>
          let s1 := addEmail s ctx.newUserId email
          match scanRow (getUser s1 email) with
          | .error e => ⟨s1, [.connect, .addEmail, .getUser], .error (.panicErr e)⟩
          | .ok userId => ⟨s1, [.connect, .addEmail, .getUser], .ok userId⟩
    | _, _, _ => ⟨s, [], .error (.fatal "Error loading env variables")⟩

/-- The configuration is loaded and the database answers: every step of
`OpenConnection` before `GetEmail` succeeds. -/
def Ctx.Ready (ctx : Ctx) : Prop :=
  ctx.dotenv = true ∧ (ctx.env.lookup "USER").isSome = true ∧
  (ctx.env.lookup "PASSWORD").isSome = true ∧ (ctx.env.lookup "DB_NAME").isSome = true ∧
  ctx.dbUp = true

instance (ctx : Ctx) : Decidable ctx.Ready := by
  unfold Ctx.Ready; infer_instance

/-! ## Store access of the five operations -/

/-- The result of the statements of one handler: the store afterwards, the
statements executed, and the value scanned or the error. -/
structure Ran (α : Type) where
  store : Store
  log : List Event
  result : Except Err α
deriving DecidableEq

/-- List: the statements of `GetList` on the opened connection. -/
def GetList.run (s : Store) (userId : String) : Ran ItemSlice :=
  ⟨s, [.listQuery], .ok (scanItems (listQuery s userId))⟩

/-- Add: the statement of `AddTask` on the opened connection; only the
fields `Task` and `Status` of the decoded body are passed. -/
def AddTask.run (s : Store) (userId : String) (newTask : Item) : Ran Item :=
  let r := AddTask.sqlStatement s newTask.Task newTask.Status userId
  ⟨r.1, [.insertTask], scanRow r.2⟩

/-- Delete: the statements of `DeleteTask` on the opened connection: the
delete, whose number of affected rows is discarded, then the list query. -/
def DeleteTask.run (s : Store) (userId : String) (number : Int) : Ran ItemSlice :=
  let r := DeleteTask.sqlStatement s number userId
  ⟨r.1, [.deleteTask, .listQuery], .ok (scanItems (listQuery r.1 userId))⟩

/-- Edit: the statement of `EditTask` on the opened connection; only the
field `Task` of the decoded body is passed. -/
def EditTask.run (s : Store) (userId : String) (number : Int) (newTask : Item) : Ran Item :=
  let r := EditTask.sqlStatement s number newTask.Task userId
  ⟨r.1, [.updateTask], scanRow r.2⟩

/-- Done: the statements of `DoneTask` on the opened connection: read the
current status, and when a row was read write its negation. -/
def DoneTask.run (s : Store) (userId : String) (number : Int) : Ran Item :=
  match scanRow (DoneTask.sqlStatement1 s number userId) with
  | .error e => ⟨s, [.selectStatus], .error e⟩
  | .ok currStatus =>
    let r := DoneTask.sqlStatement2 s number (!currStatus) userId
    ⟨r.1, [.selectStatus, .updateStatus], scanRow r.2⟩

/-! ## The handlers -/

/-- What a handler leaves behind: the response writer, the store, the
connection and statement events in order, and `abort = none` exactly when
the handler returned normally. -/
structure Outcome where
  w : ResponseWriter
  store : Store
  log : List Event
  abort : Option Abort
deriving DecidableEq

/-- No InvalidId failure: the handler neither panicked with, nor sent, an
error of `strconv.Atoi`. -/
def Outcome.noInvalidId (o : Outcome) : Prop :=
  ∀ inp kind, o.abort ≠ some (.panicErr (.atoi inp kind)) ∧
    Payload.errorText (.atoi inp kind) ∉ o.w.body

/-- What the `net/http` server sends to the client once the handler has
stopped.  When the handler returns, the reply it wrote is finished and sent.
When it panics, the server recovers the panic, logs it and closes the
connection without flushing the reply buffered in the response writer, and no
handler of `main.go` recovers before that; after `log.Fatal` the process is
gone.  In both cases nothing is sent.  Replies are taken to fit the buffer of
the response writer, as the error texts of the handlers do. -/
def Outcome.delivered (o : Outcome) : Option ResponseWriter :=
  match o.abort with
  | none => some o.w
  | some _ => none

/-- The handler `GetList`. -/
def GetList (ctx : Ctx) (s : Store) : Outcome :=
  let w := ResponseWriter.new.setContentType "application/json"
  let c := OpenConnection ctx s
  match c.result with
  | .error a => ⟨w, c.store, c.log, some a⟩
  | .ok userId =>
    let q := GetList.run c.store userId
    match q.result with
    | .error err => ⟨httpError w err StatusBadRequest, q.store, c.log ++ q.log, some (.panicErr err)⟩
    | .ok items =>
      let itemBytes := MarshalIndent items
      ⟨(w.Write (.json itemBytes)).WriteHeader StatusOK, q.store, c.log ++ q.log, none⟩

/-- The handler `AddTask`. -/
def AddTask (ctx : Ctx) (r : Request) (s : Store) : Outcome :=
  let w := ResponseWriter.new.setContentType "application/json"
  match r.body with
  | .error msg => ⟨httpError w (.decode msg) StatusBadRequest, s, [], some (.panicErr (.decode msg))⟩
  | .ok newTask =>
    let c := OpenConnection ctx s
    match c.result with
    | .error a => ⟨w, c.store, c.log, some a⟩
    | .ok userId =>
      let q := AddTask.run c.store userId newTask
      match q.result with
      | .error err => ⟨httpError w err StatusBadRequest, q.store, c.log ++ q.log, some (.panicErr err)⟩
      | .ok updatedTask =>
        ⟨(w.WriteHeader StatusOK).Write (.json (encodeItem updatedTask)), q.store, c.log ++ q.log, none⟩

/-- The handler `DeleteTask`. -/
def DeleteTask (ctx : Ctx) (r : Request) (s : Store) : Outcome :=
  let w := ResponseWriter.new.setContentType "application/json"
  match Atoi r.id with
  | .error err => ⟨httpError w err StatusBadRequest, s, [], some (.panicErr err)⟩
  | .ok number =>
    let c := OpenConnection ctx s
    match c.result with
    | .error a => ⟨w, c.store, c.log, some a⟩
    | .ok userId =>
      let q := DeleteTask.run c.store userId number
      match q.result with
      | .error err => ⟨httpError w err StatusBadRequest, q.store, c.log ++ q.log, some (.panicErr err)⟩
      | .ok items =>
        let itemBytes := MarshalIndent items
        ⟨(w.Write (.json itemBytes)).WriteHeader StatusOK, q.store, c.log ++ q.log, none⟩

/-- The handler `EditTask`. -/
def EditTask (ctx : Ctx) (r : Request) (s : Store) : Outcome :=
  let w := ResponseWriter.new.setContentType "application/json"
  match Atoi r.id with
  | .error err => ⟨httpError w err StatusBadRequest, s, [], some (.panicErr err)⟩
  | .ok number =>
    match r.body with
    | .error msg => ⟨httpError w (.decode msg) StatusBadRequest, s, [], some (.panicErr (.decode msg))⟩
    | .ok newTask =>
      let c := OpenConnection ctx s
      match c.result with
      | .error a => ⟨w, c.store, c.log, some a⟩
      | .ok userId =>
        let q := EditTask.run c.store userId number newTask
        match q.result with
        | .error err => ⟨httpError w err StatusBadRequest, q.store, c.log ++ q.log, some (.panicErr err)⟩
        | .ok updatedTask =>
          ⟨(w.WriteHeader StatusOK).Write (.json (encodeItem updatedTask)), q.store, c.log ++ q.log, none⟩

/-- The handler `DoneTask`. -/
def DoneTask (ctx : Ctx) (r : Request) (s : Store) : Outcome :=
  let w := ResponseWriter.new.setContentType "application/json"
  match Atoi r.id with
  | .error err => ⟨httpError w err StatusBadRequest, s, [], some (.panicErr err)⟩
  | .ok number =>
    let c := OpenConnection ctx s
    match c.result with
    | .error a => ⟨w, c.store, c.log, some a⟩
    | .ok userId =>
      let q := DoneTask.run c.store userId number
      match q.result with
      | .error err => ⟨httpError w err StatusBadRequest, q.store, c.log ++ q.log, some (.panicErr err)⟩
      | .ok updatedTask =>
        ⟨(w.WriteHeader StatusOK).Write (.json (encodeItem updatedTask)), q.store, c.log ++ q.log, none⟩

/-! ## The token-validation callback of `auth.go` -/

/-- The struct `JSONWebKeys`, with the two fields `getPermCert` reads. -/
structure JSONWebKeys where
  Kid : String
  X5c : List String
deriving DecidableEq, Repr

/-- The parts of a `*jwt.Token` the callback reads: the claims and the
header entry `kid` when it is a string. -/
structure Token where
  Claims : MapClaims
  kid : Option String
deriving DecidableEq, Repr

/-- The local constant `aud` of the callback: the configured API audience. -/
def aud : String := "YOUR_API_IDENTIFIER"

/-- The local constant `iss` of the callback: the configured issuer. -/
def iss : String := "https://YOUR_DOMAIN/"

/-- The loop `for _, v := range convAud` of the callback: on the first
element it either breaks (the element is the string `aud`) or returns the
error; over an empty list the body never runs. -/
def audLoop (aud : String) : List AudElem → Except String Unit
  | [] => .ok ()
  | v :: _ => if v = .str aud then .ok () else .error "invalid audience"

/-- The audience check of the callback (`auth.go`, lines 37 to 63): the
type assertion to `[]interface` first, then to `string`. -/
def audienceCheck (aud : String) (claims : MapClaims) : Except String Unit :=
  match claims.lookup "aud" with
  | some (.list convAud) => audLoop aud convAud
  | some (.str strAud) => if strAud ≠ aud then .error "invalid audience" else .ok ()
  | _ => .error "invalid audience"

/-- The method `MapClaims.VerifyIssuer(cmp, req)` of the JWT library: an
absent, non-string or empty `iss` passes exactly when not required. -/
def VerifyIssuer (claims : MapClaims) (cmp : String) (req : Bool) : Bool :=
  let i := match claims.lookup "iss" with
    | some (.str v) => v
    | _ => ""
  if i = "" then !req else decide (i = cmp)

/-- How `getPermCert` ends: a certificate, an error, or the run-time panic
of indexing an empty `X5c`. -/
inductive CertResult where
  | cert (pem : String)
  | error (msg : String)
  | indexPanic
deriving DecidableEq, Repr

/-- The loop of `getPermCert` over the keys of the fetched key set. -/
def certLoop (kid : Option String) : List JSONWebKeys → String → CertResult
  | [], cert => .cert cert
  | k :: ks, cert =>
    if kid = some k.Kid then
      match k.X5c with
      | [] => .indexPanic
      | x :: _ =>
        certLoop kid ks ("-----BEGIN CERTIFICATE-----\n" ++ x ++ "\n-----END CERTIFICATE-----")
    else certLoop kid ks cert

/-- The function `getPermCert`; `jwks` is the decoded answer of the key-set
endpoint, or the error of fetching or decoding it. -/
def getPermCert (token : Token) (jwks : Except String (List JSONWebKeys)) : CertResult :=
  match jwks with
  | .error msg => .error msg
  | .ok keys =>
    match certLoop token.kid keys "" with
    | .cert cert => if cert = "" then .error "unable to find appropriate key" else .cert cert
    | r => r

/-- How the callback ends: the certificate the key is parsed from, an
error returned to the middleware, or a panic. -/
inductive KeyResult where
  | key (pem : String)
  | error (msg : String)
  | panic (msg : String)
  | indexPanic
deriving DecidableEq, Repr

/-- The callback `ValidationKeyGetter`: the new value of the package
variable `GetToken`, and the result. -/
def ValidationKeyGetter (token : Token) (jwks : Except String (List JSONWebKeys)) :
    MapClaims × KeyResult :=
  let GetToken := token.Claims
  match audienceCheck aud token.Claims with
  | .error msg => (GetToken, .error msg)
  | .ok _ =>
    let checkIss := VerifyIssuer token.Claims iss false
    if checkIss = false then (GetToken, .error "invalid issuer")
    else
      match getPermCert token jwks with
      | .error msg => (GetToken, .panic msg)
      | .indexPanic => (GetToken, .indexPanic)
      | .cert cert => (GetToken, .key cert)

/-! ## Sample data -/

/-- A configuration in which the token carries the email of a first user. -/
def ctxA : Ctx :=
  ⟨true, [("USER", "u"), ("PASSWORD", "p"), ("DB_NAME", "d"), ("NAMESPACE_DOMAIN", "ns/email")],
    true, [("ns/email", .str "a@x.org")], "uA"⟩

/-- The same configuration with the token of a second user. -/
def ctxB : Ctx :=
  ⟨true, [("USER", "u"), ("PASSWORD", "p"), ("DB_NAME", "d"), ("NAMESPACE_DOMAIN", "ns/email")],
    true, [("ns/email", .str "b@x.org")], "uB"⟩

/-- The configuration of the first user when the store would hand out
another identifier for a new row. -/
def ctxA2 : Ctx := { ctxA with newUserId := "uZ" }

/-- A store with two users and three tasks. -/
def store2 : Store :=
  ⟨[⟨"uA", "a@x.org"⟩, ⟨"uB", "b@x.org"⟩],
   [⟨1, "buy milk", false, "uA"⟩, ⟨2, "walk dog", true, "uB"⟩, ⟨3, "pay rent", false, "uA"⟩], 3⟩

/-! ## Identity resolution -/

theorem OpenConnection_eq (ctx : Ctx) (s : Store) (e : String)
    (hready : ctx.Ready) (hmail : GetEmail ctx = .ok e) :
    OpenConnection ctx s =
      ⟨addEmail s ctx.newUserId e, [.connect, .addEmail, .getUser],
        (scanRow (getUser (addEmail s ctx.newUserId e) e)).mapError Abort.panicErr⟩ := by
  obtain ⟨h1, h2, h3, h4, h5⟩ := hready
  unfold OpenConnection
  rw [Option.isSome_iff_exists] at h2 h3 h4
  obtain ⟨a, ha⟩ := h2
  obtain ⟨b, hb⟩ := h3
  obtain ⟨c, hc⟩ := h4
  simp only [h1, ha, hb, hc, h5, hmail]
  cases scanRow (getUser (addEmail s ctx.newUserId e) e) <;> simp [Except.mapError]

theorem addEmail_of_present (s : Store) (n e : String) (h : ∃ u ∈ s.users, u.email = e) :
    addEmail s n e = s := by
  unfold addEmail
  have : (s.users.any fun u => decide (u.email = e)) = true := by
    simpa [List.any_eq_true] using h
  simp [this]

theorem addEmail_of_absent (s : Store) (n e : String) (h : ∀ u ∈ s.users, u.email ≠ e) :
    addEmail s n e = { s with users := s.users ++ [⟨n, e⟩] } := by
  unfold addEmail
  have : (s.users.any fun u => decide (u.email = e)) = false := by
    simpa [List.any_eq_false] using h
  simp [this]

theorem addEmail_present (s : Store) (n e : String) :
    ∃ u ∈ (addEmail s n e).users, u.email = e := by
  by_cases h : ∃ u ∈ s.users, u.email = e
  · rw [addEmail_of_present s n e h]; exact h
  · push_neg at h
    rw [addEmail_of_absent s n e h]
    exact ⟨⟨n, e⟩, by simp, rfl⟩

theorem addEmail_emails_nodup (s : Store) (n e : String)
    (h : (s.users.map UserRow.email).Nodup) :
    ((addEmail s n e).users.map UserRow.email).Nodup := by
  by_cases hp : ∃ u ∈ s.users, u.email = e
  · rw [addEmail_of_present s n e hp]; exact h
  · push_neg at hp
    rw [addEmail_of_absent s n e hp]
    simp only [List.map_append, List.map_cons, List.map_nil]
    rw [List.nodup_append]
    refine ⟨h, List.nodup_singleton _, ?_⟩
    intro x hx hx2
    simp only [List.mem_singleton] at hx2
    simp only [List.mem_map] at hx
    obtain ⟨u, hu, rfl⟩ := hx
    exact hp u hu hx2

theorem getUser_of_mem (users : List UserRow) (tasks : List TaskRow) (q : Int) (e : String)
    (h : ∃ u ∈ users, u.email = e) :
    ∃ uid, scanRow (getUser ⟨users, tasks, q⟩ e) = .ok uid ∧ (⟨uid, e⟩ : UserRow) ∈ users := by
  induction users with
  | nil => simp at h
  | cons u us ih =>
    by_cases hu : u.email = e
    · refine ⟨u.user_id, ?_, ?_⟩
      · simp [getUser, scanRow, List.filter_cons, hu]
      · subst hu; simp
    · have h2 : ∃ u ∈ us, u.email = e := by
        obtain ⟨v, hv, hve⟩ := h
        rcases List.mem_cons.1 hv with rfl | hv
        · exact absurd hve hu
        · exact ⟨v, hv, hve⟩
      obtain ⟨uid, h3, h4⟩ := ih h2
      refine ⟨uid, ?_, List.mem_cons_of_mem _ h4⟩
      simpa [getUser, List.filter_cons, hu] using h3

theorem email_unique (users : List UserRow) (h : (users.map UserRow.email).Nodup)
    (u v : UserRow) (hu : u ∈ users) (hv : v ∈ users) (he : u.email = v.email) : u = v :=
  List.inj_on_of_nodup_map h hu hv he

/-! ## The list query -/

theorem scanItems_foldl (rows : List (Int × String × Bool)) (acc : List Item) :
    rows.foldl (fun items r => appendItem items ⟨r.1, r.2.1, r.2.2⟩) (some acc) =
      some (acc ++ rows.map (fun r => (⟨r.1, r.2.1, r.2.2⟩ : Item))) := by
  induction rows generalizing acc with
  | nil => simp
  | cons r rs ih =>
    rw [List.foldl_cons]
    have h : appendItem (some acc) ⟨r.1, r.2.1, r.2.2⟩ = some (acc ++ [⟨r.1, r.2.1, r.2.2⟩]) := rfl
    rw [h, ih]
    simp

theorem scanItems_eq (rows : List (Int × String × Bool)) :
    scanItems rows = some (rows.map (fun r => (⟨r.1, r.2.1, r.2.2⟩ : Item))) := by
  unfold scanItems makeItems
  rw [scanItems_foldl]; simp

theorem filter_users_join (users : List UserRow) (owner userId : String) :
    users.filter (fun u => owner = u.user_id ∧ u.user_id = userId) =
      if owner = userId then users.filter (fun u => u.user_id = userId) else [] := by
  split
  · next h =>
    subst h
    apply List.filter_congr
    intro u _
    by_cases hu : u.user_id = owner
    · simp [hu]
    · simp [hu]
  · next h =>
    rw [List.filter_eq_nil_iff]
    intro u _
    simp only [decide_eq_true_eq, not_and]
    intro h1 h2
    exact h (h1.trans h2)

theorem filter_users_length (users : List UserRow) (userId : String)
    (huniq : (users.map UserRow.user_id).Nodup) (hpres : userId ∈ users.map UserRow.user_id) :
    (users.filter (fun u => u.user_id = userId)).length = 1 := by
  induction users with
  | nil => simp at hpres
  | cons u us ih =>
    simp only [List.map_cons, List.nodup_cons] at huniq
    by_cases hu : u.user_id = userId
    · have hnone : us.filter (fun v => v.user_id = userId) = [] := by
        rw [List.filter_eq_nil_iff]
        intro v hv
        simp only [decide_eq_true_eq]
        intro h2
        apply huniq.1
        rw [hu, ← h2]
        exact List.mem_map_of_mem _ hv
      rw [List.filter_cons]
      simp [hu, hnone]
    · have hp : userId ∈ us.map UserRow.user_id := by
        simp only [List.map_cons, List.mem_cons] at hpres
        rcases hpres with h | h
        · exact absurd h.symm hu
        · exact h
      have := ih huniq.2 hp
      rw [List.filter_cons]
      simpa [hu] using this

theorem listQuery_eq_owned (s : Store) (userId : String)
    (huniq : (s.users.map UserRow.user_id).Nodup) (hpres : userId ∈ s.users.map UserRow.user_id) :
    listQuery s userId = (s.ownedBy userId).map (fun t => (t.id, t.task, t.status)) := by
  unfold listQuery Store.ownedBy
  generalize s.tasks = ts
  obtain ⟨u, hu⟩ := List.length_eq_one.1 (filter_users_length s.users userId huniq hpres)
  induction ts with
  | nil => simp
  | cons t ts ih =>
    rw [List.flatMap_cons, ih, filter_users_join, List.filter_cons]
    by_cases ht : t.user_uuid = userId
    · simp [ht, hu]
    · simp [ht]

theorem listQuery_mem (s : Store) (userId : String) (r : Int × String × Bool)
    (h : r ∈ listQuery s userId) :
    ∃ t ∈ s.tasks, t.user_uuid = userId ∧ r = (t.id, t.task, t.status) := by
  unfold listQuery at h
  simp only [List.mem_flatMap, List.mem_map, List.mem_filter, decide_eq_true_eq] at h
  obtain ⟨t, ht, u, ⟨_, h1, h2⟩, h3⟩ := h
  exact ⟨t, ht, h1.trans h2, h3.symm⟩

/-! ## Statements that match no row -/

theorem filter_match_nil (tasks : List TaskRow) (n : Int) (u : String)
    (h : ∀ t ∈ tasks, ¬ (t.id = n ∧ t.user_uuid = u)) :
    tasks.filter (fun t => t.id = n ∧ t.user_uuid = u) = [] := by
  rw [List.filter_eq_nil_iff]
  intro t ht
  simpa using h t ht

theorem filter_not_match_self (tasks : List TaskRow) (n : Int) (u : String)
    (h : ∀ t ∈ tasks, ¬ (t.id = n ∧ t.user_uuid = u)) :
    tasks.filter (fun t => ¬ (t.id = n ∧ t.user_uuid = u)) = tasks := by
  rw [List.filter_eq_self]
  intro t ht
  have := h t ht
  simp only [decide_not, Bool.not_eq_true', decide_eq_false_iff_not]
  exact this

theorem map_update_self (tasks : List TaskRow) (n : Int) (u : String) (f : TaskRow → TaskRow)
    (h : ∀ t ∈ tasks, ¬ (t.id = n ∧ t.user_uuid = u)) :
    tasks.map (fun t => if t.id = n ∧ t.user_uuid = u then f t else t) = tasks := by
  conv_rhs => rw [← List.map_id tasks]
  apply List.map_congr_left
  intro t ht
  simp [h t ht]

theorem DeleteTask_sqlStatement_noMatch (s : Store) (n : Int) (u : String)
    (h : ∀ t ∈ s.tasks, ¬ (t.id = n ∧ t.user_uuid = u)) :
    DeleteTask.sqlStatement s n u = (s, 0) := by
  unfold DeleteTask.sqlStatement
  rw [filter_match_nil s.tasks n u h, filter_not_match_self s.tasks n u h]
  rfl

theorem EditTask_run_noMatch (s : Store) (n : Int) (u : String) (newTask : Item)
    (h : ∀ t ∈ s.tasks, ¬ (t.id = n ∧ t.user_uuid = u)) :
    EditTask.run s u n newTask = ⟨s, [.updateTask], .error .noRows⟩ := by
  unfold EditTask.run EditTask.sqlStatement
  simp only [filter_match_nil s.tasks n u h, map_update_self s.tasks n u _ h]
  rfl

theorem DoneTask_run_noMatch (s : Store) (n : Int) (u : String)
    (h : ∀ t ∈ s.tasks, ¬ (t.id = n ∧ t.user_uuid = u)) :
    DoneTask.run s u n = ⟨s, [.selectStatus], .error .noRows⟩ := by
  unfold DoneTask.run DoneTask.sqlStatement1
  simp only [filter_match_nil s.tasks n u h]
  rfl

/-- With unique task identifiers, a task of another owner excludes any
row with the same identifier owned by `u`. -/
theorem noMatch_of_foreign (s : Store) (t : TaskRow) (u : String)
    (hids : (s.tasks.map TaskRow.id).Nodup) (ht : t ∈ s.tasks) (hne : t.user_uuid ≠ u) :
    ∀ x ∈ s.tasks, ¬ (x.id = t.id ∧ x.user_uuid = u) := by
  intro x hx ⟨h1, h2⟩
  have : x = t := List.inj_on_of_nodup_map hids hx ht h1
  exact hne (this ▸ h2)

/-! ## Frame: rows of other owners -/

theorem ownedBy_delete (s : Store) (n : Int) (A B : String) (hAB : A ≠ B) :
    (DeleteTask.sqlStatement s n B).1.ownedBy A = s.ownedBy A := by
  unfold DeleteTask.sqlStatement Store.ownedBy
  simp only [List.filter_filter]
  apply List.filter_congr
  intro t _
  by_cases h : t.user_uuid = A
  · have : t.user_uuid ≠ B := fun hb => hAB (h.symm.trans hb)
    simp [h, this, hAB]
  · simp [h]

theorem filter_owner_map_update (tasks : List TaskRow) (n : Int) (A B : String) (hAB : A ≠ B)
    (f : TaskRow → TaskRow) (hf : ∀ t, (f t).user_uuid = t.user_uuid) :
    (tasks.map (fun t => if t.id = n ∧ t.user_uuid = B then f t else t)).filter
        (fun t => t.user_uuid = A) = tasks.filter (fun t => t.user_uuid = A) := by
  induction tasks with
  | nil => rfl
  | cons t ts ih =>
    rw [List.map_cons, List.filter_cons, List.filter_cons, ih]
    by_cases hm : t.id = n ∧ t.user_uuid = B
    · have h1 : t.user_uuid ≠ A := fun h => hAB (h.symm.trans hm.2)
      simp [hm, hf, h1, Ne.symm hAB]
    · simp [hm]

theorem ownedBy_edit (s : Store) (n : Int) (A B : String) (hAB : A ≠ B) (newTask : Item) :
    (EditTask.run s B n newTask).store.ownedBy A = s.ownedBy A := by
  unfold EditTask.run EditTask.sqlStatement Store.ownedBy
  exact filter_owner_map_update s.tasks n A B hAB _ (fun _ => rfl)

theorem ownedBy_done (s : Store) (n : Int) (A B : String) (hAB : A ≠ B) :
    (DoneTask.run s B n).store.ownedBy A = s.ownedBy A := by
  unfold DoneTask.run
  split
  · rfl
  · unfold DoneTask.sqlStatement2 Store.ownedBy
    exact filter_owner_map_update s.tasks n A B hAB _ (fun _ => rfl)

theorem OpenConnection_tasks (ctx : Ctx) (s : Store) :
    (OpenConnection ctx s).store.tasks = s.tasks ∧ (OpenConnection ctx s).store.idSeq = s.idSeq := by
  have h : ∀ n e, (addEmail s n e).tasks = s.tasks ∧ (addEmail s n e).idSeq = s.idSeq := by
    intro n e; unfold addEmail; split <;> exact ⟨rfl, rfl⟩
  unfold OpenConnection
  split
  · exact ⟨rfl, rfl⟩
  · split
    · split
      · exact ⟨rfl, rfl⟩
      · split
        · exact ⟨rfl, rfl⟩
        · dsimp only
          split <;> exact h _ _
    · exact ⟨rfl, rfl⟩

/-! ## Handlers on an opened connection -/

theorem GetList_of_opened (ctx : Ctx) (s : Store) (userId : String)
    (h : (OpenConnection ctx s).result = .ok userId) :
    GetList ctx s =
      ⟨⟨"application/json", some 200,
          [.json (MarshalIndent (scanItems (listQuery (OpenConnection ctx s).store userId)))]⟩,
        (OpenConnection ctx s).store, (OpenConnection ctx s).log ++ [.listQuery], none⟩ := by
  unfold GetList
  simp only [h, GetList.run]
  rfl

theorem AddTask_of_opened (ctx : Ctx) (r : Request) (s : Store) (newTask : Item) (userId : String)
    (hbody : r.body = .ok newTask) (h : (OpenConnection ctx s).result = .ok userId) :
    AddTask ctx r s =
      ⟨⟨"application/json", some 200,
          [.json (encodeItem ⟨(OpenConnection ctx s).store.idSeq + 1, newTask.Task, newTask.Status⟩)]⟩,
        (AddTask.run (OpenConnection ctx s).store userId newTask).store,
        (OpenConnection ctx s).log ++ [.insertTask], none⟩ := by
  unfold AddTask
  simp only [hbody, h, AddTask.run, AddTask.sqlStatement, scanRow]
  rfl

theorem DeleteTask_of_opened (ctx : Ctx) (r : Request) (s : Store) (number : Int)
    (userId : String) (hid : Atoi r.id = .ok number)
    (h : (OpenConnection ctx s).result = .ok userId) :
    DeleteTask ctx r s =
      ⟨⟨"application/json", some 200,
          [.json (MarshalIndent (scanItems (listQuery
            (DeleteTask.sqlStatement (OpenConnection ctx s).store number userId).1 userId)))]⟩,
        (DeleteTask.sqlStatement (OpenConnection ctx s).store number userId).1,
        (OpenConnection ctx s).log ++ [.deleteTask, .listQuery], none⟩ := by
  unfold DeleteTask
  simp only [hid, h, DeleteTask.run]
  rfl

theorem EditTask_of_opened_ok (ctx : Ctx) (r : Request) (s : Store) (number : Int)
    (newTask : Item) (userId : String) (updatedTask : Item)
    (hid : Atoi r.id = .ok number) (hbody : r.body = .ok newTask)
    (h : (OpenConnection ctx s).result = .ok userId)
    (hrun : (EditTask.run (OpenConnection ctx s).store userId number newTask).result
      = .ok updatedTask) :
    EditTask ctx r s =
      ⟨⟨"application/json", some 200, [.json (encodeItem updatedTask)]⟩,
        (EditTask.run (OpenConnection ctx s).store userId number newTask).store,
        (OpenConnection ctx s).log ++ [.updateTask], none⟩ := by
  unfold EditTask
  simp only [hid, hbody, h, hrun]
  rfl

theorem EditTask_of_opened_error (ctx : Ctx) (r : Request) (s : Store) (number : Int)
    (newTask : Item) (userId : String) (err : Err)
    (hid : Atoi r.id = .ok number) (hbody : r.body = .ok newTask)
    (h : (OpenConnection ctx s).result = .ok userId)
    (hrun : (EditTask.run (OpenConnection ctx s).store userId number newTask).result
      = .error err) :
    EditTask ctx r s =
      ⟨⟨"text/plain; charset=utf-8", some 400, [.errorText err]⟩,
        (EditTask.run (OpenConnection ctx s).store userId number newTask).store,
        (OpenConnection ctx s).log ++ [.updateTask], some (.panicErr err)⟩ := by
  unfold EditTask
  simp only [hid, hbody, h, hrun]
  rfl

theorem DoneTask_of_opened_ok (ctx : Ctx) (r : Request) (s : Store) (number : Int)
    (userId : String) (updatedTask : Item)
    (hid : Atoi r.id = .ok number) (h : (OpenConnection ctx s).result = .ok userId)
    (hrun : (DoneTask.run (OpenConnection ctx s).store userId number).result = .ok updatedTask) :
    DoneTask ctx r s =
      ⟨⟨"application/json", some 200, [.json (encodeItem updatedTask)]⟩,
        (DoneTask.run (OpenConnection ctx s).store userId number).store,
        (OpenConnection ctx s).log ++ (DoneTask.run (OpenConnection ctx s).store userId number).log,
        none⟩ := by
  unfold DoneTask
  simp only [hid, h, hrun]
  rfl

theorem DoneTask_of_opened_error (ctx : Ctx) (r : Request) (s : Store) (number : Int)
    (userId : String) (err : Err)
    (hid : Atoi r.id = .ok number) (h : (OpenConnection ctx s).result = .ok userId)
    (hrun : (DoneTask.run (OpenConnection ctx s).store userId number).result = .error err) :
    DoneTask ctx r s =
      ⟨⟨"text/plain; charset=utf-8", some 400, [.errorText err]⟩,
        (DoneTask.run (OpenConnection ctx s).store userId number).store,
        (OpenConnection ctx s).log ++ (DoneTask.run (OpenConnection ctx s).store userId number).log,
        some (.panicErr err)⟩ := by
  unfold DoneTask
  simp only [hid, h, hrun]
  rfl

/-! ## Frame of the handlers for other owners -/

theorem ownedBy_opened (ctx : Ctx) (s : Store) (A : String) :
    (OpenConnection ctx s).store.ownedBy A = s.ownedBy A := by
  unfold Store.ownedBy
  rw [(OpenConnection_tasks ctx s).1]

theorem OpenConnection_log (ctx : Ctx) (s : Store) :
    ∀ ev ∈ (OpenConnection ctx s).log, ev = .connect ∨ ev = .addEmail ∨ ev = .getUser := by
  unfold OpenConnection
  split
  · simp
  · split
    · split
      · simp
      · split
        · simp
        · dsimp only
          split <;> simp
    · simp

theorem GetList_run_result (s : Store) (userId : String) :
    (GetList.run s userId).result =
      .ok (some ((listQuery s userId).map (fun r => (⟨r.1, r.2.1, r.2.2⟩ : Item)))) := by
  unfold GetList.run
  rw [scanItems_eq]

theorem DeleteTask_run_result (s : Store) (userId : String) (n : Int) :
    (DeleteTask.run s userId n).result = (GetList.run (DeleteTask.run s userId n).store userId).result := by
  rfl

theorem DeleteTask_frame (ctx : Ctx) (r : Request) (s : Store) (A B : String) (hAB : A ≠ B)
    (h : (OpenConnection ctx s).result = .ok B) :
    (DeleteTask ctx r s).store.ownedBy A = s.ownedBy A := by
  cases hid : Atoi r.id with
  | error e => unfold DeleteTask; simp only [hid]
  | ok n =>
    rw [DeleteTask_of_opened ctx r s n B hid h]
    show (DeleteTask.sqlStatement _ n B).1.ownedBy A = _
    rw [ownedBy_delete _ n A B hAB, ownedBy_opened]

theorem EditTask_frame (ctx : Ctx) (r : Request) (s : Store) (A B : String) (hAB : A ≠ B)
    (h : (OpenConnection ctx s).result = .ok B) :
    (EditTask ctx r s).store.ownedBy A = s.ownedBy A := by
  cases hid : Atoi r.id with
  | error e => unfold EditTask; simp only [hid]
  | ok n =>
    cases hbody : r.body with
    | error msg => unfold EditTask; simp only [hid, hbody]
    | ok newTask =>
      cases hrun : (EditTask.run (OpenConnection ctx s).store B n newTask).result with
      | error err =>
        rw [EditTask_of_opened_error ctx r s n newTask B err hid hbody h hrun]
        show (EditTask.run _ B n newTask).store.ownedBy A = _
        rw [ownedBy_edit _ n A B hAB, ownedBy_opened]
      | ok it =>
        rw [EditTask_of_opened_ok ctx r s n newTask B it hid hbody h hrun]
        show (EditTask.run _ B n newTask).store.ownedBy A = _
        rw [ownedBy_edit _ n A B hAB, ownedBy_opened]

theorem DoneTask_frame (ctx : Ctx) (r : Request) (s : Store) (A B : String) (hAB : A ≠ B)
    (h : (OpenConnection ctx s).result = .ok B) :
    (DoneTask ctx r s).store.ownedBy A = s.ownedBy A := by
  cases hid : Atoi r.id with
  | error e => unfold DoneTask; simp only [hid]
  | ok n =>
    cases hrun : (DoneTask.run (OpenConnection ctx s).store B n).result with
    | error err =>
      rw [DoneTask_of_opened_error ctx r s n B err hid h hrun]
      show (DoneTask.run _ B n).store.ownedBy A = _
      rw [ownedBy_done _ n A B hAB, ownedBy_opened]
    | ok it =>
      rw [DoneTask_of_opened_ok ctx r s n B it hid h hrun]
      show (DoneTask.run _ B n).store.ownedBy A = _
      rw [ownedBy_done _ n A B hAB, ownedBy_opened]

/-! ## Frame of the updates -/

theorem forall₂_map_update (tasks : List TaskRow) (p : TaskRow → Prop) [DecidablePred p]
    (f : TaskRow → TaskRow) (R : TaskRow → TaskRow → Prop)
    (h1 : ∀ t, p t → R t (f t)) (h2 : ∀ t, ¬ p t → R t t) :
    List.Forall₂ R tasks (tasks.map (fun t => if p t then f t else t)) := by
  rw [List.forall₂_map_right_iff, List.forall₂_same]
  intro t _
  by_cases hp : p t
  · simp only [hp, if_true]; exact h1 t hp
  · simp only [hp, if_false]; exact h2 t hp

theorem forall₂_refl_of (tasks : List TaskRow) (R : TaskRow → TaskRow → Prop) (h : ∀ t, R t t) :
    List.Forall₂ R tasks tasks := by
  rw [List.forall₂_same]; intro t _; exact h t

/-- The store a handler with an `id` route variable leaves behind is the
store it was given, or the opened one, or the one its statements produced. -/
theorem EditTask_store (ctx : Ctx) (r : Request) (s : Store) :
    (EditTask ctx r s).store.tasks = s.tasks ∨
    ∃ userId number newTask, r.body = .ok newTask ∧
      (EditTask ctx r s).store =
        (EditTask.run (OpenConnection ctx s).store userId number newTask).store := by
  unfold EditTask
  cases Atoi r.id with
  | error e => left; rfl
  | ok n =>
    cases hb : r.body with
    | error msg => left; rfl
    | ok newTask =>
      cases hopen : (OpenConnection ctx s).result with
      | error a => left; simp only [hopen]; exact (OpenConnection_tasks ctx s).1
      | ok uid =>
        right
        refine ⟨uid, n, newTask, rfl, ?_⟩
        simp only [hopen]
        cases (EditTask.run (OpenConnection ctx s).store uid n newTask).result <;> rfl

theorem DoneTask_store (ctx : Ctx) (r : Request) (s : Store) :
    (DoneTask ctx r s).store.tasks = s.tasks ∨
    ∃ userId number,
      (DoneTask ctx r s).store = (DoneTask.run (OpenConnection ctx s).store userId number).store := by
  unfold DoneTask
  cases Atoi r.id with
  | error e => left; rfl
  | ok n =>
    cases hopen : (OpenConnection ctx s).result with
    | error a => left; simp only [hopen]; exact (OpenConnection_tasks ctx s).1
    | ok uid =>
      right
      refine ⟨uid, n, ?_⟩
      simp only [hopen]
      cases (DoneTask.run (OpenConnection ctx s).store uid n).result <;> rfl

theorem EditTask_run_tasks (s : Store) (userId : String) (n : Int) (newTask : Item) :
    (EditTask.run s userId n newTask).store.tasks = s.tasks.map (fun t =>
      if t.id = n ∧ t.user_uuid = userId then { t with task := newTask.Task } else t) := rfl

theorem DoneTask_run_tasks (s : Store) (userId : String) (n : Int) :
    (DoneTask.run s userId n).store.tasks = s.tasks ∨
    ∃ b, (DoneTask.run s userId n).store.tasks = s.tasks.map (fun t =>
      if t.id = n ∧ t.user_uuid = userId then { t with status := b } else t) := by
  unfold DoneTask.run
  split
  · left; rfl
  · right; exact ⟨_, rfl⟩

/-! ## Resolving the same token again -/

theorem OpenConnection_again (ctx : Ctx) (s s' : Store) (e : String)
    (hready : ctx.Ready) (hmail : GetEmail ctx = .ok e)
    (husers : s'.users = (OpenConnection ctx s).store.users) :
    OpenConnection ctx s' =
      ⟨s', [.connect, .addEmail, .getUser], (OpenConnection ctx s).result⟩ := by
  rw [OpenConnection_eq ctx s e hready hmail] at husers ⊢
  rw [OpenConnection_eq ctx s' e hready hmail]
  simp only at husers
  have hp : ∃ u ∈ s'.users, u.email = e := by
    rw [husers]; exact addEmail_present s ctx.newUserId e
  rw [addEmail_of_present s' _ e hp]
  have hg : getUser s' e = getUser (addEmail s ctx.newUserId e) e := by
    unfold getUser; rw [husers]
  rw [hg]

/-! ## The addressed row under unique identifiers -/

theorem filter_match_singleton (tasks : List TaskRow) (t : TaskRow)
    (hids : (tasks.map TaskRow.id).Nodup) (ht : t ∈ tasks) :
    tasks.filter (fun x => x.id = t.id ∧ x.user_uuid = t.user_uuid) = [t] := by
  induction tasks with
  | nil => simp at ht
  | cons x xs ih =>
    simp only [List.map_cons, List.nodup_cons] at hids
    rw [List.filter_cons]
    rcases List.mem_cons.1 ht with rfl | hmem
    · have hnil : xs.filter (fun x => x.id = t.id ∧ x.user_uuid = t.user_uuid) = [] := by
        apply filter_match_nil
        intro y hy hp
        exact hids.1 (hp.1 ▸ List.mem_map_of_mem _ hy)
      rw [hnil]; simp
    · have hx : ¬ (x.id = t.id ∧ x.user_uuid = t.user_uuid) := by
        intro hp
        exact hids.1 (hp.1 ▸ List.mem_map_of_mem _ hmem)
      rw [ih hids.2 hmem]
      simp only [hx, decide_False, Bool.false_eq_true, if_false]

theorem addressed_eq (tasks : List TaskRow) (t x : TaskRow)
    (hids : (tasks.map TaskRow.id).Nodup) (ht : t ∈ tasks) (hx : x ∈ tasks)
    (hp : x.id = t.id ∧ x.user_uuid = t.user_uuid) : x = t :=
  List.inj_on_of_nodup_map hids hx ht hp.1

/-- Done on a task of the caller, with unique task identifiers. -/
theorem DoneTask_run_owned (s : Store) (t : TaskRow)
    (hids : (s.tasks.map TaskRow.id).Nodup) (ht : t ∈ s.tasks) :
    DoneTask.run s t.user_uuid t.id =
      ⟨{ s with tasks := s.tasks.map (fun x =>
            if x.id = t.id ∧ x.user_uuid = t.user_uuid
            then { x with status := !t.status } else x) },
        [.selectStatus, .updateStatus], .ok ⟨t.id, t.task, !t.status⟩⟩ := by
  unfold DoneTask.run DoneTask.sqlStatement1 DoneTask.sqlStatement2
  simp only [filter_match_singleton s.tasks t hids ht, List.map_cons, List.map_nil, scanRow]
  rfl

theorem map_id_update (tasks : List TaskRow) (n : Int) (u : String) (b : Bool) :
    (tasks.map (fun x => if x.id = n ∧ x.user_uuid = u then { x with status := b } else x)).map
      TaskRow.id = tasks.map TaskRow.id := by
  rw [List.map_map]
  apply List.map_congr_left
  intro x _
  simp only [Function.comp]
  split <;> rfl

theorem done_twice_tasks (tasks : List TaskRow) (t : TaskRow)
    (hids : (tasks.map TaskRow.id).Nodup) (ht : t ∈ tasks) :
    (tasks.map (fun x => if x.id = t.id ∧ x.user_uuid = t.user_uuid
        then { x with status := !t.status } else x)).map
      (fun x => if x.id = t.id ∧ x.user_uuid = t.user_uuid
        then { x with status := !(!t.status) } else x) = tasks := by
  rw [List.map_map]
  conv_rhs => rw [← List.map_id tasks]
  apply List.map_congr_left
  intro x hx
  simp only [Function.comp, id]
  by_cases hp : x.id = t.id ∧ x.user_uuid = t.user_uuid
  · have := addressed_eq tasks t x hids ht hx hp
    subst this
    simp
  · simp [hp]

/-! ## Adding a task -/

theorem ownedBy_add (s : Store) (userId : String) (newTask : Item) :
    (AddTask.run s userId newTask).store.ownedBy userId =
      s.ownedBy userId ++ [⟨s.idSeq + 1, newTask.Task, newTask.Status, userId⟩] := by
  unfold AddTask.run AddTask.sqlStatement Store.ownedBy
  simp [List.filter_append]

theorem AddTask_run_WF (s : Store) (userId : String) (newTask : Item) (hwf : s.WF) :
    (AddTask.run s userId newTask).store.WF := by
  obtain ⟨h1, h2, h3⟩ := hwf
  refine ⟨h1, ?_, ?_⟩
  · show ((s.tasks ++ [_]).map TaskRow.id).Nodup
    rw [List.map_append, List.nodup_append]
    refine ⟨h2, List.nodup_singleton _, ?_⟩
    intro x hx hx2
    simp only [List.map_cons, List.map_nil, List.mem_singleton] at hx2
    simp only [List.mem_map] at hx
    obtain ⟨t, ht, rfl⟩ := hx
    have := h3 t ht
    omega
  · intro t ht
    have ht2 : t ∈ s.tasks ++ [⟨s.idSeq + 1, newTask.Task, newTask.Status, userId⟩] := ht
    show t.id ≤ s.idSeq + 1
    rcases List.mem_append.1 ht2 with h | h
    · have := h3 t h; omega
    · simp only [List.mem_singleton] at h
      rw [h]

theorem GetList_run_owned (s : Store) (userId : String)
    (huniq : (s.users.map UserRow.user_id).Nodup)
    (hpres : userId ∈ s.users.map UserRow.user_id) :
    (GetList.run s userId).result = .ok (some ((s.ownedBy userId).map TaskRow.toItem)) := by
  rw [GetList_run_result, listQuery_eq_owned s userId huniq hpres, List.map_map]
  rfl

/-! ## What `Atoi` accepts -/

theorem digitVal_eq (c : Char) :
    digitVal c = if c.isDigit = true then some (c.toNat - '0'.toNat) else none := by
  unfold digitVal Char.isDigit
  have h0 : ('0' ≤ c) ↔ c.val ≥ 48 := Iff.rfl
  have h9 : (c ≤ '9') ↔ c.val ≤ 57 := Iff.rfl
  by_cases h : c.val ≥ 48 ∧ c.val ≤ 57
  · have : '0' ≤ c ∧ c ≤ '9' := ⟨h0.2 h.1, h9.2 h.2⟩
    simp [this, h.1, h.2]
  · have : ¬ ('0' ≤ c ∧ c ≤ '9') := fun hh => h ⟨h0.1 hh.1, h9.1 hh.2⟩
    rw [if_neg this]
    have : ¬ ((decide (c.val ≥ 48) && decide (c.val ≤ 57)) = true) := by
      simpa using h
    rw [if_neg this]

theorem decimalFrom_ge (ds : List Char) (n : Nat) : n ≤ decimalFrom n ds := by
  induction ds generalizing n with
  | nil => exact Nat.le_refl _
  | cons c cs ih =>
    show n ≤ decimalFrom (n * 10 + (c.toNat - '0'.toNat)) cs
    have := ih (n * 10 + (c.toNat - '0'.toNat))
    omega

theorem parseUintLoop_ok_iff (cs : List Char) (n v : Nat) (hn : n ≤ 2 ^ 64 - 1) :
    parseUintLoop cs n = .ok v ↔
      cs.all Char.isDigit = true ∧ decimalFrom n cs = v ∧ v ≤ 2 ^ 64 - 1 := by
  induction cs generalizing n with
  | nil =>
    simp only [parseUintLoop, List.all_nil, decimalFrom, List.foldl_nil, true_and]
    constructor
    · intro h; have := Except.ok.inj h; subst this; exact ⟨rfl, hn⟩
    · intro h; rw [h.1]
  | cons c cs ih =>
    unfold parseUintLoop
    rw [digitVal_eq]
    by_cases hc : c.isDigit = true
    · simp only [hc, if_true, List.all_cons, Bool.true_and]
      have hge := decimalFrom_ge cs (n * 10 + (c.toNat - '0'.toNat))
      have hstep : decimalFrom n (c :: cs) = decimalFrom (n * 10 + (c.toNat - '0'.toNat)) cs := rfl
      rw [hstep]
      by_cases h1 : n ≥ (2 ^ 64 - 1) / 10 + 1
      · rw [if_pos h1]
        constructor
        · intro h; cases h
        · intro h; exfalso; omega
      · rw [if_neg h1]
        by_cases h2 : n * 10 + (c.toNat - '0'.toNat) > 2 ^ 64 - 1
        · rw [if_pos h2]
          constructor
          · intro h; cases h
          · intro h; exfalso; omega
        · rw [if_neg h2]
          exact ih _ (by omega)
    · simp only [hc, List.all_cons, Bool.false_and]
      constructor
      · intro h; simp at h
      · intro h; simp at h

theorem parseUintLoop_cases (ds : List Char) :
    (∃ k, parseUintLoop ds 0 = .error k ∧
      (ds.all Char.isDigit = false ∨ decimalFrom 0 ds > 2 ^ 64 - 1)) ∨
    (parseUintLoop ds 0 = .ok (decimalFrom 0 ds) ∧ ds.all Char.isDigit = true ∧
      decimalFrom 0 ds ≤ 2 ^ 64 - 1) := by
  cases h : parseUintLoop ds 0 with
  | error k =>
    left
    refine ⟨k, rfl, ?_⟩
    by_contra hcon
    push_neg at hcon
    have hall : ds.all Char.isDigit = true := by
      cases hb : ds.all Char.isDigit
      · exact absurd hb hcon.1
      · rfl
    have := (parseUintLoop_ok_iff ds 0 (decimalFrom 0 ds) (by omega)).2 ⟨hall, rfl, hcon.2⟩
    rw [h] at this
    cases this
  | ok v =>
    right
    have := (parseUintLoop_ok_iff ds 0 v (by omega)).1 h
    obtain ⟨h1, h2, h3⟩ := this
    subst h2
    exact ⟨rfl, h1, h3⟩

theorem decimalDigits_cons (d : Char) (ds : List Char) :
    decimalDigits (d :: ds) =
      if (d :: ds).all Char.isDigit = true then some (decimalFrom 0 (d :: ds)) else none := by
  unfold decimalDigits
  by_cases h : (d :: ds).all Char.isDigit = true
  · rw [if_pos h, if_pos ⟨by simp, h⟩]
  · rw [if_neg h, if_neg (fun hh => h hh.2)]

/-- The digits after the sign, parsed and range-checked as `Atoi` does. -/
theorem Atoi_digits (s : String) (neg : Bool) (d : Char) (ds : List Char) (n : Int) :
    (match parseUintLoop (d :: ds) 0 with
      | .error k => (.error (.atoi s k) : Except Err Int)
      | .ok un =>
        if !neg && un ≥ 2 ^ 63 then .error (.atoi s .ErrRange)
        else if neg && un > 2 ^ 63 then .error (.atoi s .ErrRange)
        else .ok (if neg then -(un : Int) else (un : Int))) = .ok n ↔
    (decimalDigits (d :: ds)).map (fun (v : Nat) => if neg then -(v : Int) else (v : Int)) = some n ∧
      -(2 ^ 63 : Int) ≤ n ∧ n < 2 ^ 63 := by
  rw [decimalDigits_cons]
  rcases parseUintLoop_cases (d :: ds) with ⟨k, hk, hbad⟩ | ⟨hok, hall, hle⟩
  · rw [hk]
    constructor
    · intro h; cases h
    · rintro ⟨h1, h2, h3⟩
      exfalso
      rcases hbad with hb | hb
      · rw [hb] at h1; simp at h1
      · by_cases hall : (d :: ds).all Char.isDigit = true
        · rw [if_pos hall] at h1
          simp only [Option.map_some', Option.some.injEq] at h1
          cases neg <;> simp at h1 <;> omega
        · rw [if_neg hall] at h1; simp at h1
  · rw [hok, if_pos hall]
    simp only [Option.map_some', Option.some.injEq]
    cases neg
    · simp only [Bool.not_false, Bool.true_and, Bool.false_and, Bool.false_eq_true, if_false,
        decide_eq_true_eq]
      by_cases h : decimalFrom 0 (d :: ds) ≥ 2 ^ 63
      · rw [if_pos h]
        constructor
        · intro h'; cases h'
        · rintro ⟨h1, _, h3⟩; exfalso; omega
      · rw [if_neg h]
        constructor
        · intro h'; have := Except.ok.inj h'; exact ⟨this, by omega, by omega⟩
        · rintro ⟨h1, _, _⟩; rw [h1]
    · simp only [Bool.not_true, Bool.false_and, Bool.true_and, Bool.false_eq_true, if_false,
        if_true, decide_eq_true_eq]
      by_cases h : decimalFrom 0 (d :: ds) > 2 ^ 63
      · rw [if_pos h]
        constructor
        · intro h'; cases h'
        · rintro ⟨h1, h2, _⟩; exfalso; omega
      · rw [if_neg h]
        constructor
        · intro h'; have := Except.ok.inj h'; exact ⟨this, by omega, by omega⟩
        · rintro ⟨h1, _, _⟩; rw [h1]

theorem Atoi_ok_iff (s : String) (n : Int) :
    Atoi s = .ok n ↔
      base10Integer s.toList = some n ∧ -(2 ^ 63 : Int) ≤ n ∧ n < 2 ^ 63 := by
  unfold Atoi base10Integer
  cases s.toList with
  | nil => simp
  | cons c cs =>
    dsimp only
    by_cases hm : c = '-'
    · subst hm
      cases cs with
      | nil => simp [decimalDigits]
      | cons d ds =>
        have := Atoi_digits s true d ds n
        simpa using this
    · by_cases hp : c = '+'
      · subst hp
        cases cs with
        | nil => simp [decimalDigits]
        | cons d ds =>
          have := Atoi_digits s false d ds n
          simpa using this
      · have := Atoi_digits s false c cs n
        simpa [hm, hp] using this

/-! ## Invalid route variable -/

theorem Atoi_error_input (s : String) (e : Err) (h : Atoi s = .error e) :
    ∃ kind, e = .atoi s kind := by
  unfold Atoi at h
  split at h
  · exact ⟨_, (Except.error.inj h).symm⟩
  · dsimp only at h
    split at h
    · exact ⟨_, (Except.error.inj h).symm⟩
    · split at h
      · exact ⟨_, (Except.error.inj h).symm⟩
      · split at h
        · exact ⟨_, (Except.error.inj h).symm⟩
        · split at h
          · exact ⟨_, (Except.error.inj h).symm⟩
          · cases h

theorem scanRow_error {α : Type} (rows : List α) (e : Err) (h : scanRow rows = .error e) :
    e = .noRows := by
  unfold scanRow at h
  split at h
  · exact (Except.error.inj h).symm
  · cases h

theorem GetEmail_error (ctx : Ctx) (a : Abort) (h : GetEmail ctx = .error a) :
    ∀ inp kind, a ≠ .panicErr (.atoi inp kind) := by
  intro inp kind hk
  subst hk
  unfold GetEmail at h
  split at h
  · cases h
  · split at h
    · cases h
    · dsimp only at h
      split at h <;> cases h

theorem OpenConnection_error (ctx : Ctx) (s : Store) (a : Abort)
    (h : (OpenConnection ctx s).result = .error a) :
    ∀ inp kind, a ≠ .panicErr (.atoi inp kind) := by
  intro inp kind hk
  subst hk
  unfold OpenConnection at h
  split at h
  · cases h
  · split at h
    · split at h
      · cases h
      · split at h
        · next a' hge =>
          have := GetEmail_error ctx a' hge inp kind
          exact this (Except.error.inj h)
        · dsimp only at h
          split at h
          · next e he =>
            have := scanRow_error _ e he
            subst this
            cases h
          · cases h
    · cases h

theorem noInvalidId_ok (w : ResponseWriter) (s : Store) (log : List Event) (j : Json)
    (hw : w.body = [.json j]) : (⟨w, s, log, none⟩ : Outcome).noInvalidId := by
  intro inp kind
  refine ⟨by simp, ?_⟩
  show _ ∉ w.body
  rw [hw]; simp

theorem noInvalidId_abort (s : Store) (log : List Event) (a : Abort)
    (ha : ∀ inp kind, a ≠ .panicErr (.atoi inp kind)) :
    (⟨ResponseWriter.new.setContentType "application/json", s, log, some a⟩ : Outcome).noInvalidId := by
  intro inp kind
  refine ⟨fun h => ha inp kind (Option.some.inj h), ?_⟩
  simp [ResponseWriter.new, ResponseWriter.setContentType]

theorem noInvalidId_error (s : Store) (log : List Event) (e : Err)
    (he : ∀ inp kind, e ≠ .atoi inp kind) :
    (⟨httpError (ResponseWriter.new.setContentType "application/json") e StatusBadRequest, s, log,
      some (.panicErr e)⟩ : Outcome).noInvalidId := by
  intro inp kind
  refine ⟨fun h => he inp kind (Abort.panicErr.inj (Option.some.inj h)), ?_⟩
  show _ ∉ [Payload.errorText e]
  simp only [List.mem_singleton]
  intro h
  exact he inp kind (Payload.errorText.inj h).symm

theorem httpError_fresh (e : Err) (code : Nat) :
    httpError (ResponseWriter.new.setContentType "application/json") e code =
      ⟨"text/plain; charset=utf-8", some code, [.errorText e]⟩ := rfl

/-! ## The schema constraints are an invariant of the handlers -/

theorem WF_empty : Store.empty.WF := by decide

theorem addEmail_WF (s : Store) (n e : String) (hwf : s.WF)
    (hfresh : n ∉ s.users.map UserRow.user_id) : (addEmail s n e).WF := by
  unfold addEmail
  split
  · exact hwf
  · obtain ⟨h1, h2, h3⟩ := hwf
    refine ⟨?_, h2, h3⟩
    show ((s.users ++ [_]).map UserRow.user_id).Nodup
    rw [List.map_append, List.nodup_append]
    refine ⟨h1, List.nodup_singleton _, ?_⟩
    intro x hx hx2
    simp only [List.map_cons, List.map_nil, List.mem_singleton] at hx2
    exact hfresh (hx2 ▸ hx)

theorem OpenConnection_WF (ctx : Ctx) (s : Store) (hwf : s.WF)
    (hfresh : ctx.newUserId ∉ s.users.map UserRow.user_id) : (OpenConnection ctx s).store.WF := by
  unfold OpenConnection
  split
  · exact hwf
  · split
    · split
      · exact hwf
      · split
        · exact hwf
        · dsimp only
          split <;> exact addEmail_WF s _ _ hwf hfresh
    · exact hwf

theorem DeleteTask_run_WF (s : Store) (userId : String) (n : Int) (hwf : s.WF) :
    (DeleteTask.run s userId n).store.WF := by
  obtain ⟨h1, h2, h3⟩ := hwf
  refine ⟨h1, ?_, ?_⟩
  · show ((s.tasks.filter _).map TaskRow.id).Nodup
    exact h2.sublist ((List.filter_sublist s.tasks).map _)
  · intro t ht
    have ht2 : t ∈ s.tasks.filter (fun t => ¬ (t.id = n ∧ t.user_uuid = userId)) := ht
    exact h3 t (List.mem_filter.1 ht2).1

theorem update_WF (s : Store) (p : TaskRow → Prop) [DecidablePred p] (f : TaskRow → TaskRow)
    (hf : ∀ t, (f t).id = t.id) (hwf : s.WF) :
    ({ s with tasks := s.tasks.map (fun t => if p t then f t else t) } : Store).WF := by
  obtain ⟨h1, h2, h3⟩ := hwf
  have hid : (s.tasks.map (fun t => if p t then f t else t)).map TaskRow.id
      = s.tasks.map TaskRow.id := by
    rw [List.map_map]
    apply List.map_congr_left
    intro t _
    simp only [Function.comp]
    split
    · exact hf t
    · rfl
  refine ⟨h1, ?_, ?_⟩
  · show ((s.tasks.map _).map TaskRow.id).Nodup
    rw [hid]; exact h2
  · intro t ht
    have ht2 : t ∈ s.tasks.map (fun t => if p t then f t else t) := ht
    rw [List.mem_map] at ht2
    obtain ⟨x, hx, rfl⟩ := ht2
    show (if p x then f x else x).id ≤ s.idSeq
    split
    · rw [hf]; exact h3 x hx
    · exact h3 x hx

theorem EditTask_run_WF (s : Store) (userId : String) (n : Int) (newTask : Item) (hwf : s.WF) :
    (EditTask.run s userId n newTask).store.WF :=
  update_WF s (fun t => t.id = n ∧ t.user_uuid = userId) _ (fun _ => rfl) hwf

theorem DoneTask_run_WF (s : Store) (userId : String) (n : Int) (hwf : s.WF) :
    (DoneTask.run s userId n).store.WF := by
  unfold DoneTask.run
  split
  · exact hwf
  · exact update_WF s (fun t => t.id = n ∧ t.user_uuid = userId) _ (fun _ => rfl) hwf

/-- Every handler keeps the schema constraints, provided the identifier the
store would give a new user is not in use. -/
theorem handlers_keep_WF (ctx : Ctx) (r : Request) (s : Store) (hwf : s.WF)
    (hfresh : ctx.newUserId ∉ s.users.map UserRow.user_id) :
    (GetList ctx s).store.WF ∧ (AddTask ctx r s).store.WF ∧ (DeleteTask ctx r s).store.WF ∧
    (EditTask ctx r s).store.WF ∧ (DoneTask ctx r s).store.WF := by
  have ho := OpenConnection_WF ctx s hwf hfresh
  refine ⟨?_, ?_, ?_, ?_, ?_⟩
  · unfold GetList
    cases hopen : (OpenConnection ctx s).result with
    | error a => simp only [hopen]; exact ho
    | ok uid => simp only [hopen, GetList.run]; exact ho
  · unfold AddTask
    cases hb : r.body with
    | error msg => exact hwf
    | ok newTask =>
      cases hopen : (OpenConnection ctx s).result with
      | error a => simp only [hopen]; exact ho
      | ok uid =>
        simp only [hopen]
        cases hrun : (AddTask.run (OpenConnection ctx s).store uid newTask).result <;>
          exact AddTask_run_WF _ uid newTask ho
  · unfold DeleteTask
    cases hid : Atoi r.id with
    | error e => exact hwf
    | ok n =>
      cases hopen : (OpenConnection ctx s).result with
      | error a => simp only [hopen]; exact ho
      | ok uid =>
        simp only [hopen]
        cases hrun : (DeleteTask.run (OpenConnection ctx s).store uid n).result <;>
          exact DeleteTask_run_WF _ uid n ho
  · unfold EditTask
    cases hid : Atoi r.id with
    | error e => exact hwf
    | ok n =>
      cases hb : r.body with
      | error msg => exact hwf
      | ok newTask =>
        cases hopen : (OpenConnection ctx s).result with
        | error a => simp only [hopen]; exact ho
        | ok uid =>
          simp only [hopen]
          cases hrun : (EditTask.run (OpenConnection ctx s).store uid n newTask).result <;>
            exact EditTask_run_WF _ uid n newTask ho
  · unfold DoneTask
    cases hid : Atoi r.id with
    | error e => exact hwf
    | ok n =>
      cases hopen : (OpenConnection ctx s).result with
      | error a => simp only [hopen]; exact ho
      | ok uid =>
        simp only [hopen]
        cases hrun : (DoneTask.run (OpenConnection ctx s).store uid n).result <;>
          exact DoneTask_run_WF _ uid n ho

/-! ## The audience check -/

theorem audienceCheck_iff (a : String) (claims : MapClaims) :
    audienceCheck a claims = .ok () ↔
      claims.lookup "aud" = some (.str a) ∨
      claims.lookup "aud" = some (.list []) ∨
      ∃ vs, claims.lookup "aud" = some (.list (.str a :: vs)) := by
  unfold audienceCheck
  cases h : claims.lookup "aud" with
  | none => simp
  | some v =>
    cases v with
    | str s =>
      by_cases hs : s = a
      · simp [hs]
      · simp [hs]
    | list vs =>
      cases vs with
      | nil => simp [audLoop]
      | cons x xs =>
        by_cases hx : x = .str a
        · simp [audLoop, hx]
        · simp [audLoop, hx]
    | num n => simp
    | bool b => simp
    | null => simp
    | object => simp

/-! ## What the handlers write before they panic -/

/-- What the handlers do on the route variable.  It parses (`strconv.Atoi`
succeeds with `n`) exactly when it is an optional sign followed by one or
more decimal digits that denote `n` in the range of a 64-bit `int`.  When it
does not parse, each of `DeleteTask`, `EditTask` and `DoneTask` writes status
400 with the text of that `Atoi` error to the response writer and panics with
it, having opened no connection and executed no statement, and the store is
unchanged; when it parses, none of the three handlers panics with or writes
an `Atoi` error. -/
theorem invalid_id_is_bad_request (ctx : Ctx) (r : Request) (s : Store) :
    (∀ n, Atoi r.id = .ok n ↔
      base10Integer r.id.toList = some n ∧ -(2 ^ 63 : Int) ≤ n ∧ n < 2 ^ 63) ∧
    (∀ e, Atoi r.id = .error e →
      (∃ kind, e = .atoi r.id kind) ∧
      DeleteTask ctx r s = ⟨⟨"text/plain; charset=utf-8", some StatusBadRequest,
        [.errorText e]⟩, s, [], some (.panicErr e)⟩ ∧
      EditTask ctx r s = ⟨⟨"text/plain; charset=utf-8", some StatusBadRequest,
        [.errorText e]⟩, s, [], some (.panicErr e)⟩ ∧
      DoneTask ctx r s = ⟨⟨"text/plain; charset=utf-8", some StatusBadRequest,
        [.errorText e]⟩, s, [], some (.panicErr e)⟩) ∧
    (∀ n, Atoi r.id = .ok n →
      (DeleteTask ctx r s).noInvalidId ∧ (EditTask ctx r s).noInvalidId ∧
      (DoneTask ctx r s).noInvalidId) := by
  refine ⟨fun n => Atoi_ok_iff r.id n, ?_, ?_⟩
  · intro e he
    refine ⟨Atoi_error_input r.id e he, ?_, ?_, ?_⟩
    · unfold DeleteTask; simp only [he]; rfl
    · unfold EditTask; simp only [he]; rfl
    · unfold DoneTask; simp only [he]; rfl
  · intro n hn
    have hnoRows : ∀ inp kind, Err.noRows ≠ .atoi inp kind := by intro _ _ h; cases h
    refine ⟨?_, ?_, ?_⟩
    · cases hopen : (OpenConnection ctx s).result with
      | error a =>
        have : DeleteTask ctx r s = ⟨ResponseWriter.new.setContentType "application/json",
            (OpenConnection ctx s).store, (OpenConnection ctx s).log, some a⟩ := by
          unfold DeleteTask; simp only [hn, hopen]
        rw [this]
        exact noInvalidId_abort _ _ a (OpenConnection_error ctx s a hopen)
      | ok uid =>
        rw [DeleteTask_of_opened ctx r s n uid hn hopen]
        exact noInvalidId_ok _ _ _ _ rfl
    · cases hbody : r.body with
      | error msg =>
        have : EditTask ctx r s = ⟨httpError (ResponseWriter.new.setContentType "application/json")
            (.decode msg) StatusBadRequest, s, [], some (.panicErr (.decode msg))⟩ := by
          unfold EditTask; simp only [hn, hbody]
        rw [this]
        exact noInvalidId_error _ _ _ (by intro _ _ h; cases h)
      | ok newTask =>
        cases hopen : (OpenConnection ctx s).result with
        | error a =>
          have : EditTask ctx r s = ⟨ResponseWriter.new.setContentType "application/json",
              (OpenConnection ctx s).store, (OpenConnection ctx s).log, some a⟩ := by
            unfold EditTask; simp only [hn, hbody, hopen]
          rw [this]
          exact noInvalidId_abort _ _ a (OpenConnection_error ctx s a hopen)
        | ok uid =>
          cases hrun : (EditTask.run (OpenConnection ctx s).store uid n newTask).result with
          | error err =>
            have herr : err = .noRows := scanRow_error _ err hrun
            subst herr
            rw [EditTask_of_opened_error ctx r s n newTask uid _ hn hbody hopen hrun,
              ← httpError_fresh]
            exact noInvalidId_error _ _ _ hnoRows
          | ok it =>
            rw [EditTask_of_opened_ok ctx r s n newTask uid it hn hbody hopen hrun]
            exact noInvalidId_ok _ _ _ _ rfl
    · cases hopen : (OpenConnection ctx s).result with
      | error a =>
        have : DoneTask ctx r s = ⟨ResponseWriter.new.setContentType "application/json",
            (OpenConnection ctx s).store, (OpenConnection ctx s).log, some a⟩ := by
          unfold DoneTask; simp only [hn, hopen]
        rw [this]
        exact noInvalidId_abort _ _ a (OpenConnection_error ctx s a hopen)
      | ok uid =>
        cases hrun : (DoneTask.run (OpenConnection ctx s).store uid n).result with
        | error err =>
          have herr : err = .noRows := by
            unfold DoneTask.run at hrun
            split at hrun
            · next e he =>
              have := scanRow_error _ e he
              subst this
              exact (Except.error.inj hrun).symm
            · exact scanRow_error _ err hrun
          subst herr
          rw [DoneTask_of_opened_error ctx r s n uid _ hn hopen hrun, ← httpError_fresh]
          exact noInvalidId_error _ _ _ hnoRows
        | ok it =>
          rw [DoneTask_of_opened_ok ctx r s n uid it hn hopen hrun]
          exact noInvalidId_ok _ _ _ _ rfl

theorem invalid_id_is_bad_request_example :
    DeleteTask ctxA ⟨"x1", .error ""⟩ store2 = ⟨⟨"text/plain; charset=utf-8", some 400,
      [.errorText (.atoi "x1" .ErrSyntax)]⟩, store2, [], some (.panicErr (.atoi "x1" .ErrSyntax))⟩ ∧
    (DoneTask ctxA ⟨"1", .error ""⟩ store2).noInvalidId :=
  ⟨((invalid_id_is_bad_request ctxA ⟨"x1", .error ""⟩ store2).2.1 (.atoi "x1" .ErrSyntax)
      (by decide)).2.1,
    ((invalid_id_is_bad_request ctxA ⟨"1", .error ""⟩ store2).2.2 1 (by decide)).2.2⟩

/-- What Edit and Done do without a matching row.  When no task with
identifier `taskId` is owned by the user, the statements of Edit and of Done
stop with `sql.ErrNoRows` and leave the store unchanged, Done after its read
only; the handlers `EditTask` and `DoneTask` then write status 400 with the
text of that error to the response writer and panic with it, and `DoneTask`
never executes its update. -/
theorem edit_done_not_found (s : Store) (userId : String) (taskId : Int)
    (hno : ∀ t ∈ s.tasks, ¬ (t.id = taskId ∧ t.user_uuid = userId)) :
    (∀ newTask, EditTask.run s userId taskId newTask = ⟨s, [.updateTask], .error .noRows⟩) ∧
    DoneTask.run s userId taskId = ⟨s, [.selectStatus], .error .noRows⟩ ∧
    (∀ (ctx : Ctx) (r : Request) (s0 : Store), Atoi r.id = .ok taskId →
        (OpenConnection ctx s0).store = s → (OpenConnection ctx s0).result = .ok userId →
        (∀ newTask, r.body = .ok newTask →
          EditTask ctx r s0 = ⟨⟨"text/plain; charset=utf-8", some StatusBadRequest,
              [.errorText .noRows]⟩, s, (OpenConnection ctx s0).log ++ [.updateTask],
            some (.panicErr .noRows)⟩) ∧
        DoneTask ctx r s0 = ⟨⟨"text/plain; charset=utf-8", some StatusBadRequest,
            [.errorText .noRows]⟩, s, (OpenConnection ctx s0).log ++ [.selectStatus],
          some (.panicErr .noRows)⟩ ∧
        Event.updateStatus ∉ (DoneTask ctx r s0).log) := by
  have hedit := fun newTask => EditTask_run_noMatch s taskId userId newTask hno
  have hdone := DoneTask_run_noMatch s taskId userId hno
  refine ⟨hedit, hdone, ?_⟩
  intro ctx r s0 hid hs hopen
  have hD : DoneTask ctx r s0 = ⟨⟨"text/plain; charset=utf-8", some StatusBadRequest,
      [.errorText .noRows]⟩, s, (OpenConnection ctx s0).log ++ [.selectStatus],
      some (.panicErr .noRows)⟩ := by
    rw [DoneTask_of_opened_error ctx r s0 taskId userId .noRows hid hopen (by rw [hs, hdone]),
      hs, hdone]
    rfl
  refine ⟨?_, hD, ?_⟩
  · intro newTask hbody
    rw [EditTask_of_opened_error ctx r s0 taskId newTask userId .noRows hid hbody hopen
      (by rw [hs, hedit]), hs, hedit]
    rfl
  · rw [hD]
    intro hmem
    simp only [List.mem_append, List.mem_singleton] at hmem
    rcases hmem with h | h
    · rcases OpenConnection_log ctx s0 _ h with h | h | h <;> cases h
    · cases h

theorem edit_done_not_found_example :
    DoneTask.run store2 "uA" 2 = ⟨store2, [.selectStatus], .error .noRows⟩ ∧
    EditTask ctxA ⟨"7", .ok ⟨0, "x", true⟩⟩ store2 =
      ⟨⟨"text/plain; charset=utf-8", some 400, [.errorText .noRows]⟩, store2,
        [.connect, .addEmail, .getUser, .updateTask], some (.panicErr .noRows)⟩ := by
  refine ⟨(edit_done_not_found store2 "uA" 2 (by decide)).2.1, ?_⟩
  have h := ((edit_done_not_found store2 "uA" 7 (by decide)).2.2 ctxA ⟨"7", .ok ⟨0, "x", true⟩⟩
    store2 (by decide) (by decide) (by decide)).1 ⟨0, "x", true⟩ rfl
  rw [h]; decide

/-! ## What reaches the client -/

theorem delivered_of_return (o : Outcome) (h : o.abort = none) : o.delivered = some o.w := by
  unfold Outcome.delivered; rw [h]

theorem delivered_of_abort (o : Outcome) (a : Abort) (h : o.abort = some a) :
    o.delivered = none := by
  unfold Outcome.delivered; rw [h]

/-- On a route variable that `Atoi` rejects, none of the three handlers
delivers a reply. -/
theorem invalid_id_never_delivered (ctx : Ctx) (r : Request) (s : Store) (e : Err)
    (h : Atoi r.id = .error e) :
    (DeleteTask ctx r s).delivered = none ∧ (EditTask ctx r s).delivered = none ∧
    (DoneTask ctx r s).delivered = none := by
  obtain ⟨hD, hE, hN⟩ := ((invalid_id_is_bad_request ctx r s).2.1 e h).2
  refine ⟨delivered_of_abort _ (.panicErr e) ?_, delivered_of_abort _ (.panicErr e) ?_,
    delivered_of_abort _ (.panicErr e) ?_⟩
  · rw [hD]
  · rw [hE]
  · rw [hN]

/-- Without a matching row, neither `EditTask` nor `DoneTask` delivers a
reply, once the route variable parses and the connection resolves. -/
theorem not_found_never_delivered (ctx : Ctx) (r : Request) (s0 : Store) (userId : String)
    (taskId : Int) (newTask : Item)
    (hno : ∀ t ∈ (OpenConnection ctx s0).store.tasks, ¬ (t.id = taskId ∧ t.user_uuid = userId))
    (hid : Atoi r.id = .ok taskId) (hopen : (OpenConnection ctx s0).result = .ok userId)
    (hbody : r.body = .ok newTask) :
    (EditTask ctx r s0).delivered = none ∧ (DoneTask ctx r s0).delivered = none := by
  obtain ⟨hE, hD, -⟩ := (edit_done_not_found (OpenConnection ctx s0).store userId taskId hno).2.2
    ctx r s0 hid rfl hopen
  refine ⟨delivered_of_abort _ (.panicErr .noRows) ?_, delivered_of_abort _ (.panicErr .noRows) ?_⟩
  · rw [hE newTask hbody]
  · rw [hD]

/-- A handler that returns delivers what it wrote: Delete on an opened
connection sends its 200 reply. -/
theorem DeleteTask_delivered (ctx : Ctx) (r : Request) (s : Store) (number : Int)
    (userId : String) (hid : Atoi r.id = .ok number)
    (h : (OpenConnection ctx s).result = .ok userId) :
    (DeleteTask ctx r s).delivered = some (DeleteTask ctx r s).w ∧
    (DeleteTask ctx r s).w.status = some StatusOK := by
  rw [DeleteTask_of_opened ctx r s number userId hid h]
  exact ⟨rfl, rfl⟩

/-! ## Claims -/

/-- Claim C1 (cross-user isolation).  For every store, distinct user
identifiers `A` and `B`, and task `t` owned by `A`:
every row the list query returns for `B` comes from a task owned by `B`, so
not from `t`, and when task identifiers are unique no listed item carries the
identifier of `t`; the statements of Delete, Edit and Done run as `B` with the
identifier of `t` leave the rows owned by `A` exactly as they were; when task
identifiers are unique they affect zero rows (the delete reports 0 rows and
the store is unchanged, Edit and Done stop with `sql.ErrNoRows`); and the
three handlers, on any request whose connection resolves to `B`, leave the
rows owned by `A` exactly as they were. -/
theorem cross_user_isolation (s : Store) (A B : String) (t : TaskRow)
    (hAB : A ≠ B) (ht : t ∈ s.tasks) (hA : t.user_uuid = A) :
    (∀ row ∈ listQuery s B,
        ∃ x ∈ s.tasks, x.user_uuid = B ∧ x ≠ t ∧ row = (x.id, x.task, x.status)) ∧
    ((s.tasks.map TaskRow.id).Nodup →
        ∃ items, (GetList.run s B).result = .ok (some items) ∧
          ∀ it ∈ items, it.TaskNum ≠ t.id) ∧
    (DeleteTask.run s B t.id).store.ownedBy A = s.ownedBy A ∧
    (∀ newTask, (EditTask.run s B t.id newTask).store.ownedBy A = s.ownedBy A) ∧
    (DoneTask.run s B t.id).store.ownedBy A = s.ownedBy A ∧
    ((s.tasks.map TaskRow.id).Nodup →
        DeleteTask.sqlStatement s t.id B = (s, 0) ∧
        (DeleteTask.run s B t.id).store = s ∧
        (∀ newTask, EditTask.run s B t.id newTask = ⟨s, [.updateTask], .error .noRows⟩) ∧
        DoneTask.run s B t.id = ⟨s, [.selectStatus], .error .noRows⟩) ∧
    (∀ (ctx : Ctx) (r : Request), (OpenConnection ctx s).result = .ok B →
        (DeleteTask ctx r s).store.ownedBy A = s.ownedBy A ∧
        (EditTask ctx r s).store.ownedBy A = s.ownedBy A ∧
        (DoneTask ctx r s).store.ownedBy A = s.ownedBy A) := by
  have hne : t.user_uuid ≠ B := fun h => hAB (hA.symm.trans h)
  refine ⟨?_, ?_, ?_, ?_, ?_, ?_, ?_⟩
  · intro row hrow
    obtain ⟨x, hx, hxB, hrow⟩ := listQuery_mem s B row hrow
    exact ⟨x, hx, hxB, fun hxt => hne (hxt ▸ hxB), hrow⟩
  · intro hids
    refine ⟨_, GetList_run_result s B, ?_⟩
    intro it hit hid
    simp only [List.mem_map] at hit
    obtain ⟨row, hrow, rfl⟩ := hit
    obtain ⟨x, hx, hxB, rfl⟩ := listQuery_mem s B row hrow
    exact noMatch_of_foreign s t B hids ht hne x hx ⟨hid, hxB⟩
  · exact ownedBy_delete s t.id A B hAB
  · intro newTask; exact ownedBy_edit s t.id A B hAB newTask
  · exact ownedBy_done s t.id A B hAB
  · intro hids
    have hno := noMatch_of_foreign s t B hids ht hne
    refine ⟨DeleteTask_sqlStatement_noMatch s t.id B hno, ?_, ?_, DoneTask_run_noMatch s t.id B hno⟩
    · show (DeleteTask.sqlStatement s t.id B).1 = s
      rw [DeleteTask_sqlStatement_noMatch s t.id B hno]
    · intro newTask; exact EditTask_run_noMatch s t.id B newTask hno
  · intro ctx r h
    exact ⟨DeleteTask_frame ctx r s A B hAB h, EditTask_frame ctx r s A B hAB h,
      DoneTask_frame ctx r s A B hAB h⟩

theorem cross_user_isolation_witness :
    (∀ row ∈ listQuery store2 "uB",
        ∃ x ∈ store2.tasks, x.user_uuid = "uB" ∧ x ≠ ⟨1, "buy milk", false, "uA"⟩ ∧
          row = (x.id, x.task, x.status)) ∧
    DoneTask.run store2 "uB" 1 = ⟨store2, [.selectStatus], .error .noRows⟩ ∧
    (DeleteTask ctxB ⟨"1", .error ""⟩ store2).store.ownedBy "uA" = store2.ownedBy "uA" := by
  have h := cross_user_isolation store2 "uA" "uB" ⟨1, "buy milk", false, "uA"⟩
    (by decide) (by decide) rfl
  exact ⟨h.1, (h.2.2.2.2.2.1 (by decide)).2.2.2, (h.2.2.2.2.2.2 ctxB ⟨"1", .error ""⟩ (by decide)).1⟩

/-- Claim C2 (List).  In a store whose user identifiers are unique and
contain `userId`, the list query of `GetList` returns exactly the tasks owned
by `userId`, each once, in store order, as `(id, task, status)` items; for a
user without tasks the result is the empty, non-nil slice; and the handler
answers 200 with the JSON array of these items, which is `[]` and never
`null` when there are none, leaving the store unchanged. -/
theorem GetList_returns_owned_tasks (s : Store) (userId : String)
    (huniq : (s.users.map UserRow.user_id).Nodup)
    (hpres : userId ∈ s.users.map UserRow.user_id) :
    (GetList.run s userId).result = .ok (some ((s.ownedBy userId).map TaskRow.toItem)) ∧
    (GetList.run s userId).store = s ∧
    (s.ownedBy userId = [] → (GetList.run s userId).result = .ok (some [])) ∧
    (∀ (ctx : Ctx) (s0 : Store), (OpenConnection ctx s0).store = s →
        (OpenConnection ctx s0).result = .ok userId →
        (GetList ctx s0).w = ⟨"application/json", some StatusOK,
          [.json (.array ((s.ownedBy userId).map (fun t => t.toItem.fields)))]⟩ ∧
        (GetList ctx s0).abort = none ∧
        (GetList ctx s0).store = s ∧
        (GetList ctx s0).w.body ≠ [.json .null] ∧
        (s.ownedBy userId = [] → (GetList ctx s0).w.body = [.json (.array [])])) := by
  have hres : (GetList.run s userId).result = .ok (some ((s.ownedBy userId).map TaskRow.toItem)) := by
    rw [GetList_run_result, listQuery_eq_owned s userId huniq hpres, List.map_map]
    rfl
  refine ⟨hres, rfl, ?_, ?_⟩
  · intro h; rw [hres, h]; rfl
  · intro ctx s0 hs hopen
    have hscan : scanItems (listQuery s userId) = some ((s.ownedBy userId).map TaskRow.toItem) := by
      have := hres
      unfold GetList.run at this
      exact Except.ok.inj this
    rw [GetList_of_opened ctx s0 userId hopen, hs, hscan]
    refine ⟨?_, rfl, rfl, ?_, ?_⟩
    · simp [MarshalIndent, StatusOK, List.map_map, Function.comp_def]
    · simp [MarshalIndent]
    · intro h; simp [MarshalIndent, h]

theorem GetList_returns_owned_tasks_witness :
    (GetList.run store2 "uA").result
      = .ok (some [⟨1, "buy milk", false⟩, ⟨3, "pay rent", false⟩]) ∧
    (GetList ctxA store2).w = ⟨"application/json", some 200,
      [.json (.array [[("id", .int 1), ("task", .str "buy milk"), ("status", .bool false)],
        [("id", .int 3), ("task", .str "pay rent"), ("status", .bool false)]])]⟩ := by
  have h := GetList_returns_owned_tasks store2 "uA" (by decide) (by decide)
  exact ⟨h.1, (h.2.2.2 ctxA store2 (by decide) (by decide)).1⟩

/-- Claim C3 (Add then List).  In a store that satisfies the schema
constraints and contains `userId`, Add returns the created task: the
description and status of the request with the next value of the sequence
as identifier, which no task of the store carried before and which does not
depend on the `id` of the request body; exactly one row is appended; and
List for the same user afterwards returns the previous items followed by the
created one, so exactly one listed item has that description and status
together with an identifier unused before.  The handlers `AddTask` and then
`GetList` answer 200 with the created task and with that list. -/
theorem add_then_list (s : Store) (userId : String) (newTask : Item)
    (hwf : s.WF) (hpres : userId ∈ s.users.map UserRow.user_id) :
    (AddTask.run s userId newTask).result = .ok ⟨s.idSeq + 1, newTask.Task, newTask.Status⟩ ∧
    (∀ t ∈ s.tasks, t.id ≠ s.idSeq + 1) ∧
    (∀ i, AddTask.run s userId ⟨i, newTask.Task, newTask.Status⟩ = AddTask.run s userId newTask) ∧
    (AddTask.run s userId newTask).store.tasks =
      s.tasks ++ [⟨s.idSeq + 1, newTask.Task, newTask.Status, userId⟩] ∧
    (AddTask.run s userId newTask).store.users = s.users ∧
    (AddTask.run s userId newTask).store.WF ∧
    (GetList.run (AddTask.run s userId newTask).store userId).result =
      .ok (some ((s.ownedBy userId).map TaskRow.toItem
        ++ [(⟨s.idSeq + 1, newTask.Task, newTask.Status⟩ : Item)])) ∧
    ((s.ownedBy userId).map TaskRow.toItem
        ++ [(⟨s.idSeq + 1, newTask.Task, newTask.Status⟩ : Item)]).countP
      (fun it => it.Task = newTask.Task ∧ it.Status = newTask.Status ∧
        it.TaskNum ∉ s.tasks.map TaskRow.id) = 1 ∧
    (∀ (ctx : Ctx) (r : Request) (s0 : Store) (e : String), ctx.Ready → GetEmail ctx = .ok e →
      r.body = .ok newTask → (OpenConnection ctx s0).store = s →
      (OpenConnection ctx s0).result = .ok userId →
      (AddTask ctx r s0).w = ⟨"application/json", some StatusOK,
        [.json (encodeItem ⟨s.idSeq + 1, newTask.Task, newTask.Status⟩)]⟩ ∧
      (AddTask ctx r s0).abort = none ∧
      (AddTask ctx r s0).store = (AddTask.run s userId newTask).store ∧
      (GetList ctx (AddTask ctx r s0).store).w = ⟨"application/json", some StatusOK,
        [.json (.array (((s.ownedBy userId).map TaskRow.toItem
          ++ [(⟨s.idSeq + 1, newTask.Task, newTask.Status⟩ : Item)]).map Item.fields))]⟩ ∧
      (GetList ctx (AddTask ctx r s0).store).abort = none) := by
  have hfresh : ∀ t ∈ s.tasks, t.id ≠ s.idSeq + 1 := by
    intro t ht
    have := hwf.2.2 t ht
    omega
  have hlist : (GetList.run (AddTask.run s userId newTask).store userId).result =
      .ok (some ((s.ownedBy userId).map TaskRow.toItem
        ++ [(⟨s.idSeq + 1, newTask.Task, newTask.Status⟩ : Item)])) := by
    have h := GetList_run_owned (AddTask.run s userId newTask).store userId hwf.1 hpres
    rw [h, ownedBy_add, List.map_append]
    rfl
  refine ⟨rfl, hfresh, fun _ => rfl, rfl, rfl, AddTask_run_WF s userId newTask hwf, hlist, ?_, ?_⟩
  · rw [List.countP_append]
    have h0 : ((s.ownedBy userId).map TaskRow.toItem).countP
        (fun it => it.Task = newTask.Task ∧ it.Status = newTask.Status ∧
          it.TaskNum ∉ s.tasks.map TaskRow.id) = 0 := by
      rw [List.countP_eq_zero]
      intro it hit
      simp only [List.mem_map] at hit
      obtain ⟨t, ht, rfl⟩ := hit
      have htm : t ∈ s.tasks := (List.mem_filter.1 ht).1
      have : t.id ∈ s.tasks.map TaskRow.id := List.mem_map_of_mem _ htm
      simp [TaskRow.toItem, this]
    have h1 : s.idSeq + 1 ∉ s.tasks.map TaskRow.id := by
      intro hmem
      simp only [List.mem_map] at hmem
      obtain ⟨t, ht, hid⟩ := hmem
      exact hfresh t ht hid
    rw [h0]
    simpa [List.countP_cons] using hfresh
  · intro ctx r s0 e hready hmail hbody hs hopen
    have hA := AddTask_of_opened ctx r s0 newTask userId hbody hopen
    rw [hs] at hA
    have hstore : (AddTask ctx r s0).store = (AddTask.run s userId newTask).store := by rw [hA]
    have husers : (AddTask ctx r s0).store.users = (OpenConnection ctx s0).store.users := by
      rw [hstore, hs]; rfl
    have hopen2 := OpenConnection_again ctx s0 (AddTask ctx r s0).store e hready hmail husers
    rw [hopen] at hopen2
    have hG := GetList_of_opened ctx (AddTask ctx r s0).store userId (by rw [hopen2])
    have hscan : scanItems (listQuery (AddTask.run s userId newTask).store userId) =
        some ((s.ownedBy userId).map TaskRow.toItem
          ++ [(⟨s.idSeq + 1, newTask.Task, newTask.Status⟩ : Item)]) := by
      have := hlist
      unfold GetList.run at this
      exact Except.ok.inj this
    have hos : (OpenConnection ctx (AddTask ctx r s0).store).store
        = (AddTask.run s userId newTask).store := by rw [hopen2, hstore]
    rw [hos, hscan] at hG
    refine ⟨by rw [hA]; rfl, by rw [hA], hstore, by rw [hG]; rfl, by rw [hG]⟩

theorem add_then_list_witness :
    (AddTask ctxA ⟨"", .ok ⟨77, "buy milk", false⟩⟩ Store.empty).w = ⟨"application/json", some 200,
      [.json (.object [("id", .int 1), ("task", .str "buy milk"), ("status", .bool false)])]⟩ ∧
    (GetList ctxA (AddTask ctxA ⟨"", .ok ⟨77, "buy milk", false⟩⟩ Store.empty).store).w =
      ⟨"application/json", some 200,
        [.json (.array [[("id", .int 1), ("task", .str "buy milk"), ("status", .bool false)]])]⟩ := by
  have h := add_then_list ⟨[⟨"uA", "a@x.org"⟩], [], 0⟩ "uA" ⟨77, "buy milk", false⟩
    (by decide) (by decide)
  have h9 := h.2.2.2.2.2.2.2.2 ctxA ⟨"", .ok ⟨77, "buy milk", false⟩⟩ Store.empty "a@x.org"
    (by decide) (by decide) rfl (by decide) (by decide)
  exact ⟨h9.1, h9.2.2.2.1⟩

/-- Claim C4 (Delete).  For every store, user and integer `taskId`, the
statements of Delete end without error whether or not a matching row exists;
the items returned are those List returns on the store after the deletion,
and none of them carries `taskId`; the `users` table is untouched; when no
task with that identifier is owned by the user the store is unchanged; and
the handler, once the route variable parses to `taskId` and the connection
resolves to the user, returns normally with status 200 and these items. -/
theorem delete_then_list (s : Store) (userId : String) (taskId : Int) :
    (∃ items, (DeleteTask.run s userId taskId).result = .ok (some items) ∧
        (GetList.run (DeleteTask.run s userId taskId).store userId).result = .ok (some items) ∧
        (∀ it ∈ items, it.TaskNum ≠ taskId) ∧
        ∀ (ctx : Ctx) (r : Request) (s0 : Store), Atoi r.id = .ok taskId →
          (OpenConnection ctx s0).store = s → (OpenConnection ctx s0).result = .ok userId →
          DeleteTask ctx r s0 = ⟨⟨"application/json", some StatusOK,
              [.json (.array (items.map Item.fields))]⟩,
            (DeleteTask.run s userId taskId).store,
            (OpenConnection ctx s0).log ++ [.deleteTask, .listQuery], none⟩) ∧
    (DeleteTask.run s userId taskId).store.users = s.users ∧
    ((∀ t ∈ s.tasks, ¬ (t.id = taskId ∧ t.user_uuid = userId)) →
        (DeleteTask.run s userId taskId).store = s) := by
  refine ⟨⟨_, GetList_run_result _ userId, GetList_run_result _ userId, ?_, ?_⟩, rfl, ?_⟩
  · intro it hit hid
    simp only [List.mem_map] at hit
    obtain ⟨row, hrow, rfl⟩ := hit
    obtain ⟨x, hx, hxu, rfl⟩ := listQuery_mem _ userId row hrow
    have hx2 : x ∈ s.tasks.filter (fun t => ¬ (t.id = taskId ∧ t.user_uuid = userId)) := hx
    rw [List.mem_filter] at hx2
    have := hx2.2
    simp only [decide_not, Bool.not_eq_true', decide_eq_false_iff_not] at this
    exact this ⟨hid, hxu⟩
  · intro ctx r s0 hid hs hopen
    rw [DeleteTask_of_opened ctx r s0 taskId userId hid hopen, hs, scanItems_eq]
    rfl
  · intro h
    show (DeleteTask.sqlStatement s taskId userId).1 = s
    rw [DeleteTask_sqlStatement_noMatch s taskId userId h]

theorem delete_then_list_witness :
    (DeleteTask ctxA ⟨"1", .error ""⟩ store2).abort = none ∧
    (DeleteTask ctxA ⟨"2", .error ""⟩ store2).store = store2 := by
  obtain ⟨⟨items, h1, -, -, h4⟩, -, h6⟩ := delete_then_list store2 "uA" 1
  obtain ⟨⟨items2, g1, -, -, g4⟩, -, g6⟩ := delete_then_list store2 "uA" 2
  constructor
  · rw [h4 ctxA ⟨"1", .error ""⟩ store2 (by decide) (by decide) (by decide)]
  · rw [g4 ctxA ⟨"2", .error ""⟩ store2 (by decide) (by decide) (by decide)]
    exact g6 (by decide)

/-- Claim C5 (Done is a toggle).  In a store with unique task
identifiers, for a task `t` owned by the caller, one Done returns `t` with
its status negated, executes the read and then the update, stores the
negated status in the row of `t` and leaves every other row as it was; a
second Done on the resulting store returns `t` with its original status and
restores the whole store.  The same holds for two consecutive calls of the
handler `DoneTask`. -/
theorem done_twice_restores (s : Store) (userId : String) (t : TaskRow)
    (hids : (s.tasks.map TaskRow.id).Nodup) (ht : t ∈ s.tasks) (hown : t.user_uuid = userId) :
    (DoneTask.run s userId t.id).result = .ok ⟨t.id, t.task, !t.status⟩ ∧
    (DoneTask.run s userId t.id).log = [.selectStatus, .updateStatus] ∧
    ({ t with status := !t.status } : TaskRow) ∈ (DoneTask.run s userId t.id).store.tasks ∧
    List.Forall₂ (fun x x' => (x = t → x' = { t with status := !t.status }) ∧ (x ≠ t → x' = x))
      s.tasks (DoneTask.run s userId t.id).store.tasks ∧
    (DoneTask.run (DoneTask.run s userId t.id).store userId t.id).result = .ok t.toItem ∧
    (DoneTask.run (DoneTask.run s userId t.id).store userId t.id).store = s ∧
    (∀ (ctx : Ctx) (r : Request) (s0 : Store) (e : String), ctx.Ready → GetEmail ctx = .ok e →
      Atoi r.id = .ok t.id → (OpenConnection ctx s0).store = s →
      (OpenConnection ctx s0).result = .ok userId →
      (DoneTask ctx r s0).w = ⟨"application/json", some StatusOK,
        [.json (encodeItem ⟨t.id, t.task, !t.status⟩)]⟩ ∧
      (DoneTask ctx r s0).abort = none ∧
      (DoneTask ctx r s0).store = (DoneTask.run s userId t.id).store ∧
      (DoneTask ctx r (DoneTask ctx r s0).store).w = ⟨"application/json", some StatusOK,
        [.json (encodeItem t.toItem)]⟩ ∧
      (DoneTask ctx r (DoneTask ctx r s0).store).abort = none ∧
      (DoneTask ctx r (DoneTask ctx r s0).store).store = s) := by
  subst hown
  have h1 := DoneTask_run_owned s t hids ht
  -- the store after the first call
  have ht1 : ({ t with status := !t.status } : TaskRow) ∈ (DoneTask.run s t.user_uuid t.id).store.tasks := by
    rw [h1]
    simp only [List.mem_map]
    exact ⟨t, ht, by simp⟩
  have hids1 : ((DoneTask.run s t.user_uuid t.id).store.tasks.map TaskRow.id).Nodup := by
    rw [h1]; simp only; rw [map_id_update]; exact hids
  have h2 := DoneTask_run_owned (DoneTask.run s t.user_uuid t.id).store
    { t with status := !t.status } hids1 ht1
  simp only at h2
  have h2store : (DoneTask.run (DoneTask.run s t.user_uuid t.id).store t.user_uuid t.id).store = s := by
    rw [h2]
    simp only [h1]
    rw [done_twice_tasks s.tasks t hids ht]
  have h2res : (DoneTask.run (DoneTask.run s t.user_uuid t.id).store t.user_uuid t.id).result
      = .ok t.toItem := by
    rw [h2]; simp [TaskRow.toItem]
  refine ⟨by rw [h1], by rw [h1], ht1, ?_, h2res, h2store, ?_⟩
  · rw [h1]
    simp only
    rw [List.forall₂_map_right_iff, List.forall₂_same]
    intro x hx
    by_cases hp : x.id = t.id ∧ x.user_uuid = t.user_uuid
    · have := addressed_eq s.tasks t x hids ht hx hp
      subst this
      simp
    · have hne : x ≠ t := fun h => hp (h ▸ ⟨rfl, rfl⟩)
      simp [hp, hne]
  · intro ctx r s0 e hready hmail hid hs hopen
    have hr1 : (DoneTask.run (OpenConnection ctx s0).store t.user_uuid t.id).result
        = .ok ⟨t.id, t.task, !t.status⟩ := by rw [hs, h1]
    have hD1 := DoneTask_of_opened_ok ctx r s0 t.id t.user_uuid _ hid hopen hr1
    rw [hs] at hD1
    have hstore1 : (DoneTask ctx r s0).store = (DoneTask.run s t.user_uuid t.id).store := by
      rw [hD1]
    have husers : (DoneTask ctx r s0).store.users = (OpenConnection ctx s0).store.users := by
      rw [hstore1, hs, h1]
    have hopen2 := OpenConnection_again ctx s0 (DoneTask ctx r s0).store e hready hmail husers
    rw [hopen] at hopen2
    have hopen2r : (OpenConnection ctx (DoneTask ctx r s0).store).result = .ok t.user_uuid := by
      rw [hopen2]
    have hopen2s : (OpenConnection ctx (DoneTask ctx r s0).store).store
        = (DoneTask.run s t.user_uuid t.id).store := by
      rw [hopen2, hstore1]
    have hr2 : (DoneTask.run (OpenConnection ctx (DoneTask ctx r s0).store).store
        t.user_uuid t.id).result = .ok t.toItem := by rw [hopen2s, h2res]
    have hD2 := DoneTask_of_opened_ok ctx r (DoneTask ctx r s0).store t.id t.user_uuid _ hid
      hopen2r hr2
    refine ⟨by rw [hD1]; rfl, by rw [hD1], hstore1, by rw [hD2]; rfl, by rw [hD2], ?_⟩
    rw [hD2]
    show (DoneTask.run (OpenConnection ctx (DoneTask ctx r s0).store).store t.user_uuid t.id).store = s
    rw [hopen2s, h2store]

theorem done_twice_restores_witness :
    (DoneTask.run store2 "uA" 1).result = .ok ⟨1, "buy milk", true⟩ ∧
    (DoneTask.run (DoneTask.run store2 "uA" 1).store "uA" 1).store = store2 ∧
    (DoneTask ctxA ⟨"1", .error ""⟩ (DoneTask ctxA ⟨"1", .error ""⟩ store2).store).store = store2 := by
  have h := done_twice_restores store2 "uA" ⟨1, "buy milk", false, "uA"⟩
    (by decide) (by decide) rfl
  obtain ⟨h1, -, -, -, -, h6, h7⟩ := h
  exact ⟨h1, h6, (h7 ctxA ⟨"1", .error ""⟩ store2 "a@x.org" (by decide) (by decide) (by decide)
    (by decide) (by decide)).2.2.2.2.2⟩

/-- Claim C6 (frames of Edit and Done).  For every store, user and
`taskId`: Edit leaves the identifier, status and owner of every row as they
were, sets the description of the addressed rows, leaves every other row, the
`users` table and the sequence unchanged, does the same whatever `id` and
`status` the request body carries, and returns the stored status; Done leaves
the identifier, description and owner of every row as they were and every
row that is not addressed unchanged.  For every context and request the
handler `EditTask` changes no identifier, status or owner and the handler
`DoneTask` no identifier, description or owner. -/
theorem edit_keeps_status_done_keeps_description (s : Store) (userId : String) (taskId : Int) :
    (∀ newTask : Item,
      List.Forall₂ (fun t t' => t'.id = t.id ∧ t'.status = t.status ∧ t'.user_uuid = t.user_uuid ∧
          (t.id = taskId ∧ t.user_uuid = userId → t'.task = newTask.Task) ∧
          (¬ (t.id = taskId ∧ t.user_uuid = userId) → t' = t))
        s.tasks (EditTask.run s userId taskId newTask).store.tasks ∧
      (EditTask.run s userId taskId newTask).store.users = s.users ∧
      (EditTask.run s userId taskId newTask).store.idSeq = s.idSeq ∧
      (∀ st i, EditTask.run s userId taskId ⟨i, newTask.Task, st⟩
        = EditTask.run s userId taskId newTask) ∧
      (∀ it, (EditTask.run s userId taskId newTask).result = .ok it →
        ∃ t ∈ s.tasks, t.id = taskId ∧ t.user_uuid = userId ∧
          it = ⟨t.id, newTask.Task, t.status⟩)) ∧
    (List.Forall₂ (fun t t' => t'.id = t.id ∧ t'.task = t.task ∧ t'.user_uuid = t.user_uuid ∧
          (¬ (t.id = taskId ∧ t.user_uuid = userId) → t' = t))
        s.tasks (DoneTask.run s userId taskId).store.tasks ∧
      (DoneTask.run s userId taskId).store.users = s.users ∧
      (DoneTask.run s userId taskId).store.idSeq = s.idSeq ∧
      (∀ it, (DoneTask.run s userId taskId).result = .ok it →
        ∃ t ∈ s.tasks, t.id = taskId ∧ t.user_uuid = userId ∧ it.TaskNum = t.id ∧
          it.Task = t.task)) ∧
    (∀ (ctx : Ctx) (r : Request),
      List.Forall₂ (fun t t' => t'.id = t.id ∧ t'.status = t.status ∧ t'.user_uuid = t.user_uuid)
        s.tasks (EditTask ctx r s).store.tasks ∧
      List.Forall₂ (fun t t' => t'.id = t.id ∧ t'.task = t.task ∧ t'.user_uuid = t.user_uuid)
        s.tasks (DoneTask ctx r s).store.tasks) := by
  refine ⟨?_, ⟨?_, ?_, ?_, ?_⟩, ?_⟩
  · intro newTask
    refine ⟨?_, rfl, rfl, ?_, ?_⟩
    · rw [EditTask_run_tasks]
      apply forall₂_map_update
      · intro t hp; exact ⟨rfl, rfl, rfl, fun _ => rfl, fun h => absurd hp h⟩
      · intro t hp; exact ⟨rfl, rfl, rfl, fun h => absurd h hp, fun _ => rfl⟩
    · intro st i; rfl
    · intro it hit
      unfold EditTask.run EditTask.sqlStatement at hit
      simp only at hit
      cases hf : s.tasks.filter (fun t => t.id = taskId ∧ t.user_uuid = userId) with
      | nil => rw [hf] at hit; simp [scanRow] at hit
      | cons t ts =>
        rw [hf] at hit
        simp only [List.map_cons, scanRow, Except.ok.injEq] at hit
        have hmem : t ∈ s.tasks.filter (fun t => t.id = taskId ∧ t.user_uuid = userId) := by
          rw [hf]; simp
        rw [List.mem_filter] at hmem
        have h2 := hmem.2
        simp only [decide_eq_true_eq] at h2
        exact ⟨t, hmem.1, h2.1, h2.2, hit.symm⟩
  · rcases DoneTask_run_tasks s userId taskId with h | ⟨b, h⟩
    · rw [h]; exact forall₂_refl_of _ _ (fun t => ⟨rfl, rfl, rfl, fun _ => rfl⟩)
    · rw [h]
      apply forall₂_map_update
      · intro t hp; exact ⟨rfl, rfl, rfl, fun h => absurd hp h⟩
      · intro t _; exact ⟨rfl, rfl, rfl, fun _ => rfl⟩
  · unfold DoneTask.run; split <;> rfl
  · unfold DoneTask.run; split <;> rfl
  · intro it hit
    unfold DoneTask.run at hit
    cases hf : s.tasks.filter (fun t => t.id = taskId ∧ t.user_uuid = userId) with
    | nil =>
      simp only [DoneTask.sqlStatement1, hf, List.map_nil, scanRow] at hit
      cases hit
    | cons t ts =>
      have hmem : t ∈ s.tasks.filter (fun t => t.id = taskId ∧ t.user_uuid = userId) := by
        rw [hf]; simp
      rw [List.mem_filter] at hmem
      have h2 := hmem.2
      simp only [decide_eq_true_eq] at h2
      simp only [DoneTask.sqlStatement1, hf, List.map_cons, scanRow, DoneTask.sqlStatement2,
        Except.ok.injEq] at hit
      exact ⟨t, hmem.1, h2.1, h2.2, by rw [← hit]; rfl, by rw [← hit]; rfl⟩
  · intro ctx r
    constructor
    · rcases EditTask_store ctx r s with h | ⟨uid, n, newTask, -, h⟩
      · rw [h]; exact forall₂_refl_of _ _ (fun t => ⟨rfl, rfl, rfl⟩)
      · rw [h, EditTask_run_tasks, (OpenConnection_tasks ctx s).1]
        apply forall₂_map_update
        · intro t _; exact ⟨rfl, rfl, rfl⟩
        · intro t _; exact ⟨rfl, rfl, rfl⟩
    · rcases DoneTask_store ctx r s with h | ⟨uid, n, h⟩
      · rw [h]; exact forall₂_refl_of _ _ (fun t => ⟨rfl, rfl, rfl⟩)
      · rw [h]
        rcases DoneTask_run_tasks (OpenConnection ctx s).store uid n with h | ⟨b, h⟩
        · rw [h, (OpenConnection_tasks ctx s).1]
          exact forall₂_refl_of _ _ (fun t => ⟨rfl, rfl, rfl⟩)
        · rw [h, (OpenConnection_tasks ctx s).1]
          apply forall₂_map_update
          · intro t _; exact ⟨rfl, rfl, rfl⟩
          · intro t _; exact ⟨rfl, rfl, rfl⟩

/-- Claim C7 (identity resolution is an idempotent upsert).  With a
ready configuration whose token carries the email `e`, and a `users` table
with unique emails, `OpenConnection` appends exactly one row for `e` when no
row has that email and leaves the store unchanged when one exists; it never
touches `tasks`; it keeps emails unique; it returns without error the
identifier of the one row with email `e`; and a second resolution of `e`,
whatever identifier the store would hand out then, leaves the store unchanged
and returns the same identifier. -/
theorem OpenConnection_idempotent_upsert (ctx ctx2 : Ctx) (s : Store) (e : String)
    (hready : ctx.Ready) (hmail : GetEmail ctx = .ok e)
    (hready2 : ctx2.Ready) (hmail2 : GetEmail ctx2 = .ok e)
    (huniq : (s.users.map UserRow.email).Nodup) :
    ((∀ u ∈ s.users, u.email ≠ e) →
        (OpenConnection ctx s).store.users = s.users ++ [⟨ctx.newUserId, e⟩]) ∧
    ((∃ u ∈ s.users, u.email = e) → (OpenConnection ctx s).store = s) ∧
    (OpenConnection ctx s).store.tasks = s.tasks ∧
    (OpenConnection ctx s).store.idSeq = s.idSeq ∧
    ((OpenConnection ctx s).store.users.map UserRow.email).Nodup ∧
    (∃ uid, (OpenConnection ctx s).result = .ok uid ∧
        (⟨uid, e⟩ : UserRow) ∈ (OpenConnection ctx s).store.users ∧
        ∀ u ∈ (OpenConnection ctx s).store.users, u.email = e → u.user_id = uid) ∧
    (OpenConnection ctx2 (OpenConnection ctx s).store).store = (OpenConnection ctx s).store ∧
    (OpenConnection ctx2 (OpenConnection ctx s).store).result = (OpenConnection ctx s).result := by
  have hpres := addEmail_present s ctx.newUserId e
  have hnd := addEmail_emails_nodup s ctx.newUserId e huniq
  have hsame : addEmail (addEmail s ctx.newUserId e) ctx2.newUserId e = addEmail s ctx.newUserId e :=
    addEmail_of_present _ _ _ hpres
  rw [OpenConnection_eq ctx2 _ e hready2 hmail2, OpenConnection_eq ctx s e hready hmail]
  simp only [hsame]
  refine ⟨?_, ?_, ?_, ?_, hnd, ?_, trivial, trivial⟩
  · intro h; rw [addEmail_of_absent s _ e h]
  · intro h; rw [addEmail_of_present s _ e h]
  · unfold addEmail; split <;> rfl
  · unfold addEmail; split <;> rfl
  · obtain ⟨uid, h1, h2⟩ := getUser_of_mem (addEmail s ctx.newUserId e).users
      (addEmail s ctx.newUserId e).tasks (addEmail s ctx.newUserId e).idSeq e hpres
    refine ⟨uid, ?_, h2, ?_⟩
    · show Except.mapError _ _ = _
      rw [show (addEmail s ctx.newUserId e) = ⟨(addEmail s ctx.newUserId e).users,
        (addEmail s ctx.newUserId e).tasks, (addEmail s ctx.newUserId e).idSeq⟩ from rfl] 
      rw [h1]; rfl
    · intro u hu hue
      have := email_unique _ hnd u ⟨uid, e⟩ hu h2 hue
      rw [this]

theorem OpenConnection_idempotent_upsert_witness :
    (OpenConnection ctxA Store.empty).store.users = [⟨"uA", "a@x.org"⟩] ∧
    (OpenConnection ctxA Store.empty).result = .ok "uA" ∧
    (OpenConnection ctxA2 (OpenConnection ctxA Store.empty).store).store.users
      = [⟨"uA", "a@x.org"⟩] ∧
    (OpenConnection ctxA2 (OpenConnection ctxA Store.empty).store).result = .ok "uA" := by
  have h := OpenConnection_idempotent_upsert ctxA ctxA2 Store.empty "a@x.org"
    (by decide) (by decide) (by decide) (by decide) (by decide)
  obtain ⟨h1, -, -, -, -, -, h7, h8⟩ := h
  have hu := h1 (by decide)
  refine ⟨hu, by decide, ?_, ?_⟩
  · rw [h7]; exact hu
  · rw [h8]; decide

/-- Claim C8 (InvalidId), evaluated where the code departs from it.  On the
route variable `x1`, which is no integer, `DeleteTask` writes status 400 with
the `Atoi` error and then panics with it, so the reply is dropped and no
HTTP 400 reaches the client; the same holds for `EditTask` and `DoneTask`;
the store is unchanged and no connection was opened.  On the route variable
`9223372036854775808`, a base-10 integer, `Atoi` reports a range error and the
handler raises the InvalidId failure all the same. -/
theorem invalid_id_reply_is_dropped :
    (DeleteTask ctxA ⟨"x1", .error ""⟩ store2).w =
      ⟨"text/plain; charset=utf-8", some StatusBadRequest,
        [.errorText (.atoi "x1" .ErrSyntax)]⟩ ∧
    (DeleteTask ctxA ⟨"x1", .error ""⟩ store2).abort
      = some (.panicErr (.atoi "x1" .ErrSyntax)) ∧
    (DeleteTask ctxA ⟨"x1", .error ""⟩ store2).delivered = none ∧
    (EditTask ctxA ⟨"x1", .ok ⟨0, "x", true⟩⟩ store2).delivered = none ∧
    (DoneTask ctxA ⟨"x1", .error ""⟩ store2).delivered = none ∧
    (DeleteTask ctxA ⟨"x1", .error ""⟩ store2).store = store2 ∧
    (DeleteTask ctxA ⟨"x1", .error ""⟩ store2).log = [] ∧
    base10Integer "9223372036854775808".toList = some 9223372036854775808 ∧
    Atoi "9223372036854775808" = .error (.atoi "9223372036854775808" .ErrRange) ∧
    (DeleteTask ctxA ⟨"9223372036854775808", .error ""⟩ store2).abort
      = some (.panicErr (.atoi "9223372036854775808" .ErrRange)) ∧
    (DeleteTask ctxA ⟨"9223372036854775808", .error ""⟩ store2).delivered = none := by
  decide

/-- Claim C9 (NotFound), evaluated where the code departs from it.  The
first user owns no task 7 and no task 2: `EditTask` on 7 and `DoneTask` on 2
write status 400 with `sql.ErrNoRows` and then panic with it, so the reply is
dropped and NotFound is not reported as HTTP 400; the store is unchanged and
`DoneTask` stopped after its read.  On task 1, which the user owns,
`DoneTask` returns and its 200 reply is delivered. -/
theorem not_found_reply_is_dropped :
    (EditTask ctxA ⟨"7", .ok ⟨0, "x", true⟩⟩ store2).w =
      ⟨"text/plain; charset=utf-8", some StatusBadRequest, [.errorText .noRows]⟩ ∧
    (EditTask ctxA ⟨"7", .ok ⟨0, "x", true⟩⟩ store2).abort = some (.panicErr .noRows) ∧
    (EditTask ctxA ⟨"7", .ok ⟨0, "x", true⟩⟩ store2).delivered = none ∧
    (EditTask ctxA ⟨"7", .ok ⟨0, "x", true⟩⟩ store2).store = store2 ∧
    (DoneTask ctxA ⟨"2", .error ""⟩ store2).w =
      ⟨"text/plain; charset=utf-8", some StatusBadRequest, [.errorText .noRows]⟩ ∧
    (DoneTask ctxA ⟨"2", .error ""⟩ store2).abort = some (.panicErr .noRows) ∧
    (DoneTask ctxA ⟨"2", .error ""⟩ store2).delivered = none ∧
    (DoneTask ctxA ⟨"2", .error ""⟩ store2).store = store2 ∧
    (DoneTask ctxA ⟨"2", .error ""⟩ store2).log
      = [.connect, .addEmail, .getUser, .selectStatus] ∧
    (DoneTask ctxA ⟨"1", .error ""⟩ store2).delivered =
      some ⟨"application/json", some StatusOK,
        [.json (.object [("id", .int 1), ("task", .str "buy milk"), ("status", .bool true)])]⟩ := by
  decide

/-- Claim C10 (audience check), evaluated where the code departs from it:
a token whose `aud` claim is the empty list gets past the audience check
although the configured audience does not appear in it, and the callback goes
on to return a key; a list with another audience is rejected, and so is a
list that holds the configured audience after another one. -/
theorem audienceCheck_accepts_empty_list :
    audienceCheck aud [("aud", .list [])] = .ok () ∧
    audienceCheck aud [("aud", .list [.str "https://other-api/"])] = .error "invalid audience" ∧
    audienceCheck aud [("aud", .list [.str "https://other-api/", .str aud])]
      = .error "invalid audience" ∧
    ValidationKeyGetter ⟨[("aud", .list [])], some "k1"⟩ (.ok [⟨"k1", ["MIIB"]⟩]) =
      ([("aud", .list [])],
        .key "-----BEGIN CERTIFICATE-----\nMIIB\n-----END CERTIFICATE-----") := by
  decide

end Backend
